import Mathlib

/-!
# CHIP-8 interpreter: memory, call stack and execution engine

A shallow embedding of `src/src/chip8memory.c`, `src/src/chip8stack.c` and
`src/src/chip8.c`, with the constants of `src/include/config.h` and the structs of
`src/include/chip8registers.h`, `chip8memory.h` and `chip8keyboard.h`.

Conventions of the embedding.

* `unsigned char` and `unsigned short` values are natural numbers below `256` and
  `65536` (`UChar`, `UShort`).  Every C conversion to one of these types is an explicit
  reduction modulo `2 ^ 8` or `2 ^ 16` (`toUChar`, `toUShort`, and `toUCharI` for a value
  of type `int` that may be negative).
* A C array is a function on indices; only the indices below the declared length denote
  entries of the array.
* A function that can stop the process returns `Except Fault _`.  `Fault.assertFailed`
  is a failed `assert`; `Fault.outOfArray` is an access past the last entry of an array,
  which C leaves undefined.
* The machine state is passed explicitly: a C function that mutates `struct chip8 *`
  returns the new state.
-/

namespace Chip8

/-! ## config.h -/

abbrev CHIP8_MEMORY_SIZE : Nat := 4096
abbrev CHIP8_WIDTH : Nat := 64
abbrev CHIP8_HEIGHT : Nat := 32
abbrev CHIP8_TOTAL_DATA_REGISTERS : Nat := 16
abbrev CHIP8_TOTAL_STACK_DEPTH : Nat := 16
abbrev CHIP8_PROGRAM_LOAD_ADDRESS : Nat := 0x200
abbrev CHIP8_CHARACTER_SET_LOAD_ADDRESS : Nat := 0x00
abbrev CHIP8_TOTAL_KEYS : Nat := 16
abbrev CHIP8_DEFAULT_SPRITE_HEIGHT : Nat := 5

/-! ## Machine integers and failure -/

/-- The C type `unsigned char`. -/
abbrev UChar := Fin 256

/-- The C type `unsigned short`. -/
abbrev UShort := Fin 65536

/-- Conversion of a non-negative value to `unsigned char`: reduction modulo 256. -/
def toUChar (n : Nat) : UChar := ⟨n % 256, Nat.mod_lt n (by decide)⟩

/-- Conversion of an `int` value, possibly negative, to `unsigned char`. -/
def toUCharI (z : Int) : UChar := ⟨(z % 256).toNat, by omega⟩

/-- Conversion of a non-negative value to `unsigned short`: reduction modulo 65536. -/
def toUShort (n : Nat) : UShort := ⟨n % 65536, Nat.mod_lt n (by decide)⟩

/-- The ways a call stops the process instead of returning. -/
inductive Fault where
  /-- An `assert` failed. -/
  | assertFailed
  /-- An array was accessed past its last entry. -/
  | outOfArray
  deriving DecidableEq, Repr

/-! ## chip8memory.h, chip8memory.c -/

/-- The struct `chip8_memory`: `unsigned char memory[CHIP8_MEMORY_SIZE]`. -/
structure chip8_memory where
  memory : Nat → UChar

/-- The function `chip8_is_memory_in_bounds`:
`assert(index >= 0 && index < CHIP8_MEMORY_SIZE)`. -/
def chip8_is_memory_in_bounds (index : Int) : Except Fault Unit :=
  if index ≥ 0 ∧ index < CHIP8_MEMORY_SIZE then .ok () else .error .assertFailed

/-- The function `chip8_memory_set`. -/
def chip8_memory_set (memory : chip8_memory) (index : Int) (val : UChar) :
    Except Fault chip8_memory := do
  chip8_is_memory_in_bounds index
  pure { memory := fun j => if j = index.toNat then val else memory.memory j }

/-- The function `chip8_memory_get`. -/
def chip8_memory_get (memory : chip8_memory) (index : Int) : Except Fault UChar := do
  chip8_is_memory_in_bounds index
  pure (memory.memory index.toNat)

/-- The function `chip8_memory_get_short`: `byte1 << 8 | byte2`, returned as
`unsigned short`. -/
def chip8_memory_get_short (memory : chip8_memory) (index : Int) : Except Fault UShort := do
  let byte1 ← chip8_memory_get memory index
  let byte2 ← chip8_memory_get memory (index + 1)
  pure (toUShort (byte1.val <<< 8 ||| byte2.val))

/-! ## chip8registers.h -/

/-- The struct `chip8_registers`. -/
structure chip8_registers where
  /-- The array `unsigned char V[CHIP8_TOTAL_DATA_REGISTERS]`. -/
  V : Nat → UChar
  /-- The address register `unsigned short I`. -/
  I : UShort
  delay_timer : UChar
  sound_timer : UChar
  /-- The program counter `unsigned short PC`. -/
  PC : UShort
  /-- The stack pointer `unsigned char SP`. -/
  SP : UChar

/-! ## chip8keyboard.h -/

/-- The struct `chip8_keyboard`: `_Bool keyboard[CHIP8_TOTAL_KEYS]` and the pointer
`keyboard_map`, `none` being the null pointer. -/
structure chip8_keyboard where
  keyboard : Nat → Bool
  keyboard_map : Option (List Int)

/-! ## Declarations that the sources use and do not contain -/

/-- Modelled from the spec: `chip8stack.h` is not among the sources; the call stack is a
"fixed sequence of 16 sixteen-bit addresses", the array
`unsigned short stack[CHIP8_TOTAL_STACK_DEPTH]` that `chip8stack.c` indexes. -/
structure chip8_stack where
  stack : Nat → UShort

/-- Modelled from the spec: the value of `sizeof(chip8->stack.stack)`, the size in bytes
of the array of `CHIP8_TOTAL_STACK_DEPTH` sixteen-bit entries declared in the missing
`chip8stack.h` ("stack bound checked in bytes not entries"). -/
def sizeof_stack : Nat := CHIP8_TOTAL_STACK_DEPTH * 2

/-- Modelled from the spec: `chip8screen.h` is not among the sources; the display is a
monochrome bitmap of `CHIP8_WIDTH` by `CHIP8_HEIGHT` pixels. -/
structure chip8_screen where
  pixels : Nat → Nat → Bool

/-- Modelled from the spec: `chip8.h` is not among the sources; `struct chip8` has the
members `memory`, `registers`, `stack`, `keyboard` and `screen` that `chip8.c` and
`chip8stack.c` access. -/
structure chip8 where
  memory : chip8_memory
  registers : chip8_registers
  stack : chip8_stack
  keyboard : chip8_keyboard
  screen : chip8_screen

/-- An event delivered by `SDL_WaitEvent`: its `type` and `key.keysym.sym`. -/
structure SDL_Event where
  type : Nat
  sym : Int

/-- The SDL constant `SDL_KEYDOWN`. -/
abbrev SDL_KEYDOWN : Nat := 0x300

/-- Modelled from the spec: the display, the input device and the C library that `chip8.c`
calls are not among the sources.  `chip8_screen_clear`, `chip8_screen_draw_sprite`,
`chip8_keyboard_is_down` and `chip8_keyboard_map` are the functions of those names,
`events` is the sequence of events that `SDL_WaitEvent` delivers before it returns 0,
and `rand` is the value of `rand()` after `srand(clock())`. -/
structure Collaborators where
  chip8_screen_clear : chip8_screen → Except Fault chip8_screen
  chip8_screen_draw_sprite : chip8_screen → Nat → Nat → (Nat → UChar) → Nat →
    Except Fault (Bool × chip8_screen)
  chip8_keyboard_is_down : chip8_keyboard → Nat → Except Fault Bool
  chip8_keyboard_map : chip8_keyboard → Int → Int
  events : List SDL_Event
  rand : Nat

/-- Conversion of an `int` value to `char` (a signed byte). -/
def toChar (z : Int) : Int := (z + 128) % 256 - 128

/-! ## Writes to the members of the machine state -/

/-- The assignment `chip8->registers.V[x] = v`. -/
def chip8.set_V (c : chip8) (x : Nat) (v : UChar) : chip8 :=
  { c with registers :=
      { c.registers with V := fun j => if j = x then v else c.registers.V j } }

/-- The assignment `chip8->registers.PC = v`. -/
def chip8.set_PC (c : chip8) (v : UShort) : chip8 :=
  { c with registers := { c.registers with PC := v } }

/-- The assignment `chip8->registers.I = v`. -/
def chip8.set_I (c : chip8) (v : UShort) : chip8 :=
  { c with registers := { c.registers with I := v } }

/-- The assignment `chip8->registers.SP = v`. -/
def chip8.set_SP (c : chip8) (v : UChar) : chip8 :=
  { c with registers := { c.registers with SP := v } }

/-! ## chip8stack.c -/

/-- The function `chip8_stack_in_bounds`:
`assert(chip8->registers.SP < sizeof(chip8->stack.stack))`. -/
def chip8_stack_in_bounds (c : chip8) : Except Fault Unit :=
  if c.registers.SP.val < sizeof_stack then .ok () else .error .assertFailed

/-- The function `chip8_stack_push`: increment `SP`, check, then store into
`stack[SP]`.  The store is past the last entry of the array when
`SP ≥ CHIP8_TOTAL_STACK_DEPTH`. -/
def chip8_stack_push (c : chip8) (val : UShort) : Except Fault chip8 := do
  let c1 := c.set_SP (toUChar (c.registers.SP.val + 1))
  chip8_stack_in_bounds c1
  if c1.registers.SP.val < CHIP8_TOTAL_STACK_DEPTH then
    pure { c1 with stack :=
      { stack := fun j => if j = c1.registers.SP.val then val else c1.stack.stack j } }
  else
    .error .outOfArray

/-- The function `chip8_stack_pop`: check, read `stack[SP]`, then decrement `SP`.  It
returns the value read and the new state.  The read is past the last entry of the array
when `SP ≥ CHIP8_TOTAL_STACK_DEPTH`. -/
def chip8_stack_pop (c : chip8) : Except Fault (UShort × chip8) := do
  chip8_stack_in_bounds c
  if c.registers.SP.val < CHIP8_TOTAL_STACK_DEPTH then
    let res := c.stack.stack c.registers.SP.val
    pure (res, c.set_SP (toUCharI ((c.registers.SP.val : Int) - 1)))
  else
    .error .outOfArray

/-! ## chip8.c -/

/-- The table `chip8_default_character_set`, as the bytes that `memcpy` copies. -/
def chip8_default_character_set : List Nat :=
  [ 0xf0, 0x90, 0x90, 0x90, 0xf0,
    0x20, 0x60, 0x20, 0x20, 0x70,
    0xf0, 0x10, 0xf0, 0x80, 0xf0,
    0xf0, 0x10, 0xf0, 0x10, 0xf0,
    0x90, 0x90, 0xf0, 0x10, 0x10,
    0xf0, 0x80, 0xf0, 0x10, 0xf0,
    0xf0, 0x80, 0xf0, 0x90, 0xf0,
    0xf0, 0x10, 0x20, 0x40, 0x40,
    0xf0, 0x90, 0xf0, 0x90, 0xf0,
    0xf0, 0x90, 0xf0, 0x10, 0xf0,
    0xf0, 0x90, 0xf0, 0x90, 0x90,
    0xe0, 0x90, 0xe0, 0x90, 0xe0,
    0xf0, 0x80, 0x80, 0x80, 0xf0,
    0xe0, 0x90, 0x90, 0x90, 0xe0,
    0xf0, 0x80, 0xf0, 0x80, 0xf0,
    0xf0, 0x80, 0xf0, 0x80, 0x80 ]

/-- The state after `memset(chip8, 0, sizeof(struct chip8))`. -/
def chip8_zeroed : chip8 :=
  { memory := { memory := fun _ => 0 }
    registers :=
      { V := fun _ => 0, I := 0, delay_timer := 0, sound_timer := 0, PC := 0, SP := 0 }
    stack := { stack := fun _ => 0 }
    keyboard := { keyboard := fun _ => false, keyboard_map := none }
    screen := { pixels := fun _ _ => false } }

/-- The function `chip8_init`: zero the whole struct, then copy the character set to
the start of the memory. -/
def chip8_init (_c : chip8) : chip8 :=
  let c0 := chip8_zeroed
  { c0 with memory :=
      { memory := fun j =>
          if j < chip8_default_character_set.length
          then toUChar (chip8_default_character_set.getD j 0)
          else c0.memory.memory j } }

/-- The function `chip8_load`: `assert(size + CHIP8_PROGRAM_LOAD_ADDRESS <
CHIP8_MEMORY_SIZE)` in `size_t` arithmetic, copy `size` bytes of `buf` to the load
address, set `PC`.  Reading `size` bytes from a shorter buffer is an access past its
last entry. -/
def chip8_load (c : chip8) (buf : List UChar) (size : Nat) : Except Fault chip8 :=
  if (size + CHIP8_PROGRAM_LOAD_ADDRESS) % 2 ^ 64 < CHIP8_MEMORY_SIZE then
    if size ≤ buf.length then
      let c1 : chip8 :=
        { c with memory :=
            { memory := fun j =>
                if CHIP8_PROGRAM_LOAD_ADDRESS ≤ j ∧ j < CHIP8_PROGRAM_LOAD_ADDRESS + size
                then buf.getD (j - CHIP8_PROGRAM_LOAD_ADDRESS) 0
                else c.memory.memory j } }
      pure (c1.set_PC (toUShort CHIP8_PROGRAM_LOAD_ADDRESS))
    else .error .outOfArray
  else .error .assertFailed

/-- The function `chip8_exec_extended_eight`: the `8xy-` family, selected by the last
four bits of the opcode. -/
def chip8_exec_extended_eight (c : chip8) (opcode : Nat) : chip8 :=
  let x := (opcode >>> 8) &&& 0x000f
  let y := (opcode >>> 4) &&& 0x000f
  let final_four_bits := opcode &&& 0x000f
  match final_four_bits with
  | 0x00 => c.set_V x (c.registers.V y)
  | 0x01 => c.set_V x (toUChar ((c.registers.V x).val ||| (c.registers.V y).val))
  | 0x02 => c.set_V x (toUChar ((c.registers.V x).val &&& (c.registers.V y).val))
  | 0x03 => c.set_V x (toUChar ((c.registers.V x).val ^^^ (c.registers.V y).val))
  | 0x04 =>
    let tmp := toUShort ((c.registers.V x).val + (c.registers.V y).val)
    let c1 := c.set_V 0x0f (toUChar 0)
    let c2 := if tmp.val > 0xff then c1.set_V 0x0f (toUChar 1) else c1
    c2.set_V x (toUChar tmp.val)
  | 0x05 =>
    let c1 := c.set_V 0x0f (toUChar 0)
    let c2 :=
      if (c1.registers.V x).val > (c1.registers.V y).val then c1.set_V 0x0f (toUChar 1)
      else c1
    c2.set_V x (toUCharI (((c2.registers.V x).val : Int) - ((c2.registers.V y).val : Int)))
  | 0x06 =>
    let c1 := c.set_V 0x0f (toUChar ((c.registers.V x).val &&& 0b00000001))
    c1.set_V x (toUChar ((c1.registers.V x).val / 2))
  | 0x07 =>
    let c1 :=
      c.set_V x (toUChar (if (c.registers.V y).val > (c.registers.V x).val then 1 else 0))
    c1.set_V x (toUCharI (((c1.registers.V y).val : Int) - ((c1.registers.V x).val : Int)))
  | 0x0E =>
    let c1 := c.set_V 0x0f (toUChar ((c.registers.V x).val &&& 0b10000000))
    c1.set_V x (toUChar ((c1.registers.V x).val * 2))
  | _ => c

/-- The function `chip8_wait_for_key_press`: the loop over the events that `SDL_WaitEvent`
delivers; the first key-down event that `chip8_keyboard_map` maps to a key is returned,
and `-1` when the events end. -/
def chip8_wait_for_key_press (env : Collaborators) (c : chip8) : List SDL_Event → Int
  | [] => -1
  | event :: rest =>
    if event.type ≠ SDL_KEYDOWN then chip8_wait_for_key_press env c rest
    else
      let ch := toChar event.sym
      let chip8_key := toChar (env.chip8_keyboard_map c.keyboard ch)
      if chip8_key ≠ -1 then chip8_key
      else chip8_wait_for_key_press env c rest

/-- The loop of case `0x55`: `for (i = ...; i <= x; i++) chip8_memory_set(&chip8->memory,
I + i, V[i])`, with `n` the number of iterations still to run. -/
def chip8_store_registers_loop (c : chip8) : (n : Nat) → (i : Nat) → Except Fault chip8
  | 0, _ => pure c
  | n + 1, i => do
    let m ← chip8_memory_set c.memory ((c.registers.I.val : Int) + (i : Int))
      (c.registers.V i)
    chip8_store_registers_loop { c with memory := m } n (i + 1)

/-- The loop of case `0x65`: `for (i = ...; i <= x; i++) V[i] = chip8_memory_get(
&chip8->memory, I + i)`, with `n` the number of iterations still to run. -/
def chip8_read_registers_loop (c : chip8) : (n : Nat) → (i : Nat) → Except Fault chip8
  | 0, _ => pure c
  | n + 1, i => do
    let v ← chip8_memory_get c.memory ((c.registers.I.val : Int) + (i : Int))
    chip8_read_registers_loop (c.set_V i v) n (i + 1)

/-- The function `chip8_exec_extended_F`: the `Fx--` family, selected by the low byte of
the opcode.  Case `0x33` has no `break` and continues into case `0x55`. -/
def chip8_exec_extended_F (env : Collaborators) (c : chip8) (opcode : Nat) :
    Except Fault chip8 :=
  let x := (opcode >>> 8) &&& 0x000f
  match opcode &&& 0x00ff with
  | 0x07 => pure (c.set_V x c.registers.delay_timer)
  | 0x0A =>
    let pressed_key := chip8_wait_for_key_press env c env.events
    pure (c.set_V x (toUCharI pressed_key))
  | 0x15 => pure { c with registers := { c.registers with delay_timer := c.registers.V x } }
  | 0x18 => pure { c with registers := { c.registers with sound_timer := c.registers.V x } }
  | 0x1E => pure (c.set_I (toUShort (c.registers.I.val + (c.registers.V x).val)))
  | 0x29 => pure (c.set_I (toUShort ((c.registers.V x).val * CHIP8_DEFAULT_SPRITE_HEIGHT)))
  | 0x33 => do
    let hundreds := toUChar ((c.registers.V x).val / 100)
    let tens := toUChar ((c.registers.V x).val / 10 % 10)
    let units := toUChar ((c.registers.V x).val % 10)
    let m1 ← chip8_memory_set c.memory (c.registers.I.val : Int) hundreds
    let m2 ← chip8_memory_set m1 ((c.registers.I.val : Int) + 1) tens
    let m3 ← chip8_memory_set m2 ((c.registers.I.val : Int) + 2) units
    chip8_store_registers_loop { c with memory := m3 } (x + 1) 0
  | 0x55 => chip8_store_registers_loop c (x + 1) 0
  | 0x65 => chip8_read_registers_loop c (x + 1) 0
  | _ => pure c

/-- The function `chip8_exec_extended`: the families selected by the top four bits of
the opcode. -/
def chip8_exec_extended (env : Collaborators) (c : chip8) (opcode : Nat) :
    Except Fault chip8 :=
  let nnn := opcode &&& 0x0fff
  let x := (opcode >>> 8) &&& 0x000f
  let y := (opcode >>> 4) &&& 0x000f
  let kk := opcode &&& 0x00ff
  let n := opcode &&& 0x000f
  match opcode &&& 0xf000 with
  | 0x1000 => pure (c.set_PC (toUShort nnn))
  | 0x2000 => do
    let c1 ← chip8_stack_push c c.registers.PC
    pure (c1.set_PC (toUShort nnn))
  | 0x3000 =>
    if (c.registers.V x).val = kk then
      pure (c.set_PC (toUShort (c.registers.PC.val + 2)))
    else pure c
  | 0x4000 =>
    if (c.registers.V x).val ≠ kk then
      pure (c.set_PC (toUShort (c.registers.PC.val + 2)))
    else pure c
  | 0x5000 =>
    if c.registers.V x = c.registers.V y then
      pure (c.set_PC (toUShort (c.registers.PC.val + 2)))
    else pure c
  | 0x6000 => pure (c.set_V x (toUChar kk))
  | 0x7000 => pure (c.set_V x (toUChar ((c.registers.V x).val + kk)))
  | 0x8000 => pure (chip8_exec_extended_eight c opcode)
  | 0x9000 =>
    if c.registers.V x ≠ c.registers.V y then
      pure (c.set_PC (toUShort (c.registers.PC.val + 2)))
    else pure c
  | 0xA000 => pure (c.set_I (toUShort nnn))
  | 0xB000 => pure (c.set_PC (toUShort (nnn + (c.registers.V 0x00).val)))
  | 0xC000 => pure (c.set_V x (toUChar ((env.rand % 255) &&& kk)))
  | 0xD000 => do
    let sprite : Nat → UChar := fun k => c.memory.memory (c.registers.I.val + k)
    let r ← env.chip8_screen_draw_sprite c.screen (c.registers.V x).val
      (c.registers.V y).val sprite n
    pure ({ c with screen := r.2 }.set_V 0x0f (toUChar (if r.1 then 1 else 0)))
  | 0xE000 =>
    match opcode &&& 0x00ff with
    | 0x9e => do
      let down ← env.chip8_keyboard_is_down c.keyboard (c.registers.V x).val
      if down then pure (c.set_PC (toUShort (c.registers.PC.val + 2))) else pure c
    | 0xa1 => do
      let down ← env.chip8_keyboard_is_down c.keyboard (c.registers.V x).val
      if !down then pure (c.set_PC (toUShort (c.registers.PC.val + 2))) else pure c
    | _ => pure c
  | 0xF000 => chip8_exec_extended_F env c opcode
  | _ => pure c

/-- The function `chip8_exec`: `CLS` and `RET` are matched on the whole opcode, every
other opcode goes to `chip8_exec_extended`. -/
def chip8_exec (env : Collaborators) (c : chip8) (opcode : Nat) : Except Fault chip8 :=
  match opcode with
  | 0x00E0 => do
    let s ← env.chip8_screen_clear c.screen
    pure { c with screen := s }
  | 0x00EE => do
    let r ← chip8_stack_pop c
    pure (r.2.set_PC r.1)
  | _ => chip8_exec_extended env c opcode

/-! ## Sequences of stack operations -/

/-- Calls of `chip8_stack_push`, one for each address of the list, in order. -/
def stack_push_all (c : chip8) : List UShort → Except Fault chip8
  | [] => pure c
  | v :: vs => do
    let c1 ← chip8_stack_push c v
    stack_push_all c1 vs

/-- The first `k` calls of `chip8_stack_pop`: the values returned, first pop first, and
the state after the last. -/
def stack_pop_n (c : chip8) : Nat → Except Fault (List UShort × chip8)
  | 0 => pure ([], c)
  | k + 1 => do
    let r ← chip8_stack_pop c
    let rest ← stack_pop_n r.2 k
    pure (r.1 :: rest.1, rest.2)

/-! ## Lemmas on the memory accessors -/

theorem chip8_is_memory_in_bounds_ok {index : Int} (h0 : 0 ≤ index)
    (h1 : index < 4096) : chip8_is_memory_in_bounds index = .ok () := by
  simp [chip8_is_memory_in_bounds, h0, h1]

theorem chip8_is_memory_in_bounds_error {index : Int} (h : index < 0 ∨ 4096 ≤ index) :
    chip8_is_memory_in_bounds index = .error .assertFailed := by
  have : ¬ (index ≥ 0 ∧ index < 4096) := by omega
  simp [chip8_is_memory_in_bounds, this]

theorem chip8_memory_get_ok (m : chip8_memory) {index : Int} (h0 : 0 ≤ index)
    (h1 : index < 4096) : chip8_memory_get m index = .ok (m.memory index.toNat) := by
  simp [chip8_memory_get, chip8_is_memory_in_bounds_ok h0 h1, bind, Except.bind, pure,
    Except.pure]

theorem chip8_memory_get_error (m : chip8_memory) {index : Int}
    (h : index < 0 ∨ 4096 ≤ index) :
    chip8_memory_get m index = .error .assertFailed := by
  simp [chip8_memory_get, chip8_is_memory_in_bounds_error h, bind, Except.bind]

theorem chip8_memory_set_ok (m : chip8_memory) {index : Int} (val : UChar) (h0 : 0 ≤ index)
    (h1 : index < 4096) :
    chip8_memory_set m index val
      = .ok { memory := fun j => if j = index.toNat then val else m.memory j } := by
  simp [chip8_memory_set, chip8_is_memory_in_bounds_ok h0 h1, bind, Except.bind, pure,
    Except.pure]

theorem chip8_memory_set_error (m : chip8_memory) {index : Int} (val : UChar)
    (h : index < 0 ∨ 4096 ≤ index) :
    chip8_memory_set m index val = .error .assertFailed := by
  simp [chip8_memory_set, chip8_is_memory_in_bounds_error h, bind, Except.bind]

theorem shl8_or_eq (a b : Nat) (hb : b < 256) : a <<< 8 ||| b = a * 256 + b := by
  have h := Nat.mul_add_lt_is_or (show b < 2 ^ 8 from hb) a
  rw [Nat.shiftLeft_eq, Nat.mul_comm a (2 ^ 8), ← h]

theorem chip8_memory_get_short_ok (m : chip8_memory) {index : Int} (h0 : 0 ≤ index)
    (h1 : index + 1 < 4096) :
    chip8_memory_get_short m index
      = .ok (toUShort ((m.memory index.toNat).val * 256 + (m.memory (index + 1).toNat).val)) := by
  have hb : ((m.memory (index + 1).toNat).val) < 256 := (m.memory (index + 1).toNat).isLt
  simp [chip8_memory_get_short, chip8_memory_get_ok m h0 (by omega : index < 4096),
    chip8_memory_get_ok m (by omega : 0 ≤ index + 1) h1, bind, Except.bind, pure,
    Except.pure, shl8_or_eq _ _ hb]

/-! ## Claims on the memory accessors -/

/-- C1: a byte written with `chip8_memory_set` at an index `0 ≤ i < 4096` is the byte
that `chip8_memory_get` returns at the same index of the resulting memory. -/
theorem C1_memory_set_get_roundtrip (m : chip8_memory) (i : Int) (v : UChar)
    (h0 : 0 ≤ i) (h1 : i < 4096) :
    ∃ m1, chip8_memory_set m i v = .ok m1 ∧ chip8_memory_get m1 i = .ok v := by
  refine ⟨_, chip8_memory_set_ok m v h0 h1, ?_⟩
  rw [chip8_memory_get_ok _ h0 h1]
  simp

theorem C1_memory_set_get_roundtrip_witness :
    ((0 : Int) ≤ 4095 ∧ (4095 : Int) < 4096) ∧
    ∃ m1, chip8_memory_set ⟨fun _ => 0⟩ 4095 (0xAB : UChar) = .ok m1 ∧
      chip8_memory_get m1 4095 = .ok (0xAB : UChar) :=
  ⟨by decide, C1_memory_set_get_roundtrip ⟨fun _ => 0⟩ 4095 0xAB (by decide) (by decide)⟩

/-- C2: for `0 ≤ i ≤ 4094` the word read by `chip8_memory_get_short` at `i` is
`chip8_memory_get i * 256 + chip8_memory_get (i + 1)`, the byte at `i` being the high
byte, and it is below 65536. -/
theorem C2_memory_get_short_big_endian (m : chip8_memory) (i : Int)
    (h0 : 0 ≤ i) (h1 : i ≤ 4094) :
    ∃ b1 b2 w, chip8_memory_get m i = .ok b1 ∧ chip8_memory_get m (i + 1) = .ok b2 ∧
      chip8_memory_get_short m i = .ok w ∧
      w.val = b1.val * 256 + b2.val ∧ w.val < 65536 := by
  refine ⟨_, _, _, chip8_memory_get_ok m h0 (by omega),
    chip8_memory_get_ok m (by omega) (by omega),
    chip8_memory_get_short_ok m h0 (by omega), ?_, Fin.isLt _⟩
  have ha := (m.memory i.toNat).isLt
  have hb := (m.memory (i + 1).toNat).isLt
  simp only [toUShort]
  omega

theorem C2_memory_get_short_big_endian_witness :
    ((0 : Int) ≤ 4094 ∧ (4094 : Int) ≤ 4094) ∧
    ∃ b1 b2 w, chip8_memory_get ⟨fun j => if j = 4094 then 0x12 else 0x34⟩ 4094 = .ok b1 ∧
      chip8_memory_get ⟨fun j => if j = 4094 then 0x12 else 0x34⟩ (4094 + 1) = .ok b2 ∧
      chip8_memory_get_short ⟨fun j => if j = 4094 then 0x12 else 0x34⟩ 4094 = .ok w ∧
      w.val = b1.val * 256 + b2.val ∧ w.val < 65536 :=
  ⟨by decide, C2_memory_get_short_big_endian _ 4094 (by decide) (by decide)⟩

/-- C3: `chip8_memory_get` and `chip8_memory_set` fail exactly when `index < 0` or
`index ≥ 4096`, `chip8_memory_get_short` fails exactly when `index < 0` or
`index + 1 ≥ 4096`, each failure being the failed assertion, and every other access
returns. -/
theorem C3_memory_fails_iff_out_of_range (m : chip8_memory) (index : Int) (val : UChar) :
    (chip8_memory_get m index = .error .assertFailed ↔ (index < 0 ∨ index ≥ 4096)) ∧
    ((∃ b, chip8_memory_get m index = .ok b) ↔ ¬ (index < 0 ∨ index ≥ 4096)) ∧
    (chip8_memory_set m index val = .error .assertFailed ↔ (index < 0 ∨ index ≥ 4096)) ∧
    ((∃ m1, chip8_memory_set m index val = .ok m1) ↔ ¬ (index < 0 ∨ index ≥ 4096)) ∧
    (chip8_memory_get_short m index = .error .assertFailed
      ↔ (index < 0 ∨ index + 1 ≥ 4096)) ∧
    ((∃ w, chip8_memory_get_short m index = .ok w) ↔ ¬ (index < 0 ∨ index + 1 ≥ 4096)) ∧
    chip8_memory_get_short m 4095 = .error .assertFailed := by
  have h4095 : chip8_memory_get_short m 4095 = .error .assertFailed := by
    have e1 := chip8_memory_get_ok m (show (0 : Int) ≤ 4095 by decide) (by decide)
    have e2 := chip8_memory_get_error m (show (4095 + 1 : Int) < 0 ∨ 4096 ≤ (4095 + 1 : Int) by decide)
    simp only [chip8_memory_get_short, e1, e2, bind, Except.bind]
  by_cases h : index < 0 ∨ index ≥ 4096
  · have hs : index < 0 ∨ index + 1 ≥ 4096 := by omega
    have hg := chip8_memory_get_error m h
    have hset := chip8_memory_set_error m val h
    have hsh : chip8_memory_get_short m index = .error .assertFailed := by
      simp [chip8_memory_get_short, hg, bind, Except.bind]
    simp [hg, hset, hsh, h, hs, h4095]
  · have h0 : 0 ≤ index := by omega
    have h1 : index < 4096 := by omega
    have hg := chip8_memory_get_ok m h0 h1
    have hset := chip8_memory_set_ok m val h0 h1
    by_cases h2 : index + 1 < 4096
    · have hsh := chip8_memory_get_short_ok m h0 h2
      have hs : ¬ (index < 0 ∨ index + 1 ≥ 4096) := by omega
      simp [hg, hset, hsh, h, hs, h4095]
    · have hs : index < 0 ∨ index + 1 ≥ 4096 := by omega
      have hsh : chip8_memory_get_short m index = .error .assertFailed := by
        simp [chip8_memory_get_short, hg,
          chip8_memory_get_error m (by omega : index + 1 < 0 ∨ 4096 ≤ index + 1),
          bind, Except.bind]
      simp [hg, hset, hsh, h, hs, h4095]

/-! ## Lemmas on the call stack -/

theorem chip8_stack_push_ok (c : chip8) (val : UShort) (h : c.registers.SP.val ≤ 14) :
    ∃ c1, chip8_stack_push c val = .ok c1 ∧
      c1.registers = { c.registers with SP := toUChar (c.registers.SP.val + 1) } ∧
      c1.registers.SP.val = c.registers.SP.val + 1 ∧
      c1.memory = c.memory ∧ c1.keyboard = c.keyboard ∧ c1.screen = c.screen ∧
      c1.stack.stack = fun j => if j = c.registers.SP.val + 1 then val else c.stack.stack j := by
  have e : (c.registers.SP.val + 1) % 256 = c.registers.SP.val + 1 := by omega
  have h1 : c.registers.SP.val + 1 < sizeof_stack := by
    simp only [sizeof_stack, CHIP8_TOTAL_STACK_DEPTH]; omega
  have h2 : c.registers.SP.val + 1 < 16 := by omega
  refine ⟨{ c.set_SP (toUChar (c.registers.SP.val + 1)) with
      stack := { stack := fun j =>
        if j = c.registers.SP.val + 1 then val else c.stack.stack j } }, ?_, rfl, ?_,
    rfl, rfl, rfl, rfl⟩
  · simp [chip8_stack_push, chip8_stack_in_bounds, chip8.set_SP, toUChar, e, h1, h2, bind,
      Except.bind, pure, Except.pure]
  · simp only [chip8.set_SP, toUChar]; omega

theorem chip8_stack_pop_ok (c : chip8) (h : c.registers.SP.val ≤ 15) :
    chip8_stack_pop c
      = .ok (c.stack.stack c.registers.SP.val,
          c.set_SP (toUCharI ((c.registers.SP.val : Int) - 1))) := by
  have h1 : c.registers.SP.val < sizeof_stack := by
    simp only [sizeof_stack, CHIP8_TOTAL_STACK_DEPTH]; omega
  have h2 : c.registers.SP.val < 16 := by omega
  simp [chip8_stack_pop, chip8_stack_in_bounds, h1, h2, bind, Except.bind, pure,
    Except.pure]

theorem stack_pop_n_snoc (k : Nat) : ∀ (c c2 : chip8) (l : List UShort) (r : UShort × chip8),
    stack_pop_n c k = .ok (l, c2) → chip8_stack_pop c2 = .ok r →
    stack_pop_n c (k + 1) = .ok (l ++ [r.1], r.2) := by
  induction k with
  | zero =>
    intro c c2 l r h1 h2
    simp only [stack_pop_n, pure, Except.pure, Except.ok.injEq, Prod.mk.injEq] at h1
    obtain ⟨hl, hc⟩ := h1
    subst hl; subst hc
    simp [stack_pop_n, h2, bind, Except.bind, pure, Except.pure]
  | succ k ih =>
    intro c c2 l r h1 h2
    rw [stack_pop_n] at h1
    cases hp : chip8_stack_pop c with
    | error e => simp [hp, bind, Except.bind] at h1
    | ok r0 =>
      cases hn : stack_pop_n r0.2 k with
      | error e => simp [hp, hn, bind, Except.bind] at h1
      | ok rest =>
        simp only [hp, hn, bind, Except.bind, pure, Except.pure, Except.ok.injEq,
          Prod.mk.injEq] at h1
        obtain ⟨hl, hc⟩ := h1
        have hrest : stack_pop_n r0.2 k = .ok (rest.1, c2) := by rw [hn, ← hc]
        have := ih r0.2 c2 rest.1 r hrest h2
        rw [stack_pop_n]
        simp [hp, this, bind, Except.bind, pure, Except.pure, ← hl]

/-- Pushing a list of addresses and popping as many: the pops return the addresses in
reverse order, and the final state differs from the initial one at most in the stack
slots above the initial stack pointer. -/
theorem stack_push_all_pop_n (vs : List UShort) : ∀ (c : chip8),
    c.registers.SP.val + vs.length ≤ 15 →
    ∃ c1 c2, stack_push_all c vs = .ok c1 ∧
      c1.registers.SP.val = c.registers.SP.val + vs.length ∧
      stack_pop_n c1 vs.length = .ok (vs.reverse, c2) ∧
      c2.registers = c.registers ∧ c2.memory = c.memory ∧ c2.keyboard = c.keyboard ∧
      c2.screen = c.screen ∧
      ∀ j, j ≤ c.registers.SP.val → c2.stack.stack j = c.stack.stack j := by
  induction vs with
  | nil =>
    intro c _
    exact ⟨c, c, rfl, rfl, rfl, rfl, rfl, rfl, rfl, fun _ _ => rfl⟩
  | cons v vs ih =>
    intro c h
    simp only [List.length_cons] at h
    obtain ⟨c0, hpush, hreg0, hsp0, hmem0, hkb0, hscr0, hst0⟩ :=
      chip8_stack_push_ok c v (by omega)
    obtain ⟨c1, c2, h1, hsp, h2, hreg, hmem, hkb, hscr, hst⟩ := ih c0 (by omega)
    have hsp2 : c2.registers.SP.val = c.registers.SP.val + 1 := by rw [hreg, hsp0]
    have hpop := chip8_stack_pop_ok c2 (by omega)
    have hsnoc := stack_pop_n_snoc _ _ _ _ _ h2 hpop
    refine ⟨c1, c2.set_SP (toUCharI ((c2.registers.SP.val : Int) - 1)), ?_, ?_, ?_, ?_,
      hmem.trans hmem0, hkb.trans hkb0, hscr.trans hscr0, ?_⟩
    · simp [stack_push_all, hpush, h1, bind, Except.bind]
    · rw [hsp, hsp0, List.length_cons]; omega
    · rw [List.length_cons, hsnoc]
      have hv : c2.stack.stack c2.registers.SP.val = v := by
        rw [hsp2, hst (c.registers.SP.val + 1) (by omega), hst0]
        simp
      simp [hv]
    · have hz : toUCharI ((c2.registers.SP.val : Int) - 1) = c.registers.SP := by
        apply Fin.ext
        simp only [toUCharI, hsp2]
        omega
      have hset : (c2.set_SP (toUCharI ((c2.registers.SP.val : Int) - 1))).registers
          = { c2.registers with SP := c.registers.SP } := by
        simp only [chip8.set_SP, hz]
      rw [hset, hreg, hreg0]
    · intro j hj
      have hj2 : j ≠ c.registers.SP.val + 1 := by omega
      show c2.stack.stack j = c.stack.stack j
      rw [hst j (by omega), hst0]
      simp [hj2]

/-! ## Claims on the call stack -/

/-- C4: on a machine with stack pointer `s`, for addresses `v1..vk` with `s + k ≤ 15`,
`k` calls of `chip8_stack_push` followed by `k` calls of `chip8_stack_pop` all return,
the pops return `vk..v1`, and the stack pointer is `s` again afterwards. -/
theorem C4_push_pop_lifo (c : chip8) (vs : List UShort)
    (h : c.registers.SP.val + vs.length ≤ 15) :
    ∃ c1 c2, stack_push_all c vs = .ok c1 ∧
      stack_pop_n c1 vs.length = .ok (vs.reverse, c2) ∧
      c1.registers.SP.val = c.registers.SP.val + vs.length ∧
      c2.registers.SP = c.registers.SP := by
  obtain ⟨c1, c2, h1, hsp, h2, hreg, _⟩ := stack_push_all_pop_n vs c h
  exact ⟨c1, c2, h1, h2, hsp, by rw [hreg]⟩

theorem C4_push_pop_lifo_witness :
    (chip8_zeroed.registers.SP.val + [(0x200 : UShort), 0x300, 0x400].length ≤ 15) ∧
    ∃ c1 c2, stack_push_all chip8_zeroed [(0x200 : UShort), 0x300, 0x400] = .ok c1 ∧
      stack_pop_n c1 [(0x200 : UShort), 0x300, 0x400].length
        = .ok ([(0x200 : UShort), 0x300, 0x400].reverse, c2) ∧
      c1.registers.SP.val
        = chip8_zeroed.registers.SP.val + [(0x200 : UShort), 0x300, 0x400].length ∧
      c2.registers.SP = chip8_zeroed.registers.SP :=
  ⟨by decide, C4_push_pop_lifo chip8_zeroed [0x200, 0x300, 0x400] (by decide)⟩

theorem chip8_stack_in_bounds_iff (c : chip8) :
    chip8_stack_in_bounds c = .ok () ↔ c.registers.SP.val < 32 := by
  simp only [chip8_stack_in_bounds, sizeof_stack, CHIP8_TOTAL_STACK_DEPTH]
  split <;> simp_all

theorem chip8_stack_push_at_15 (c : chip8) (v : UShort) (h : c.registers.SP.val = 15) :
    chip8_stack_push c v = .error .outOfArray := by
  have e : (toUChar (c.registers.SP.val + 1)).val = 16 := by
    show (c.registers.SP.val + 1) % 256 = 16
    rw [h]
  simp only [chip8_stack_push, chip8_stack_in_bounds, chip8.set_SP, sizeof_stack,
    CHIP8_TOTAL_STACK_DEPTH, e, bind, Except.bind]
  simp

theorem chip8_stack_push_assert_iff (c : chip8) (v : UShort) :
    chip8_stack_push c v = .error .assertFailed
      ↔ 31 ≤ c.registers.SP.val ∧ c.registers.SP.val ≤ 254 := by
  have hlt := c.registers.SP.isLt
  have e : (toUChar (c.registers.SP.val + 1)).val = (c.registers.SP.val + 1) % 256 := rfl
  simp only [chip8_stack_push, chip8_stack_in_bounds, chip8.set_SP, sizeof_stack,
    CHIP8_TOTAL_STACK_DEPTH, e, bind, Except.bind, pure, Except.pure]
  by_cases h1 : (c.registers.SP.val + 1) % 256 < 16 * 2
  · by_cases h2 : (c.registers.SP.val + 1) % 256 < 16
    · simp only [h1, h2, if_true]
      constructor
      · intro h; cases h
      · intro h; omega
    · simp only [h1, h2, if_true, if_false]
      constructor
      · intro h; cases h
      · intro h; omega
  · simp only [h1, if_false]
    constructor
    · intro _; omega
    · intro _; trivial

theorem stack_push_all_snoc_error (l : List UShort) : ∀ (c c1 : chip8) (v : UShort)
    (e : Fault), stack_push_all c l = .ok c1 → chip8_stack_push c1 v = .error e →
    stack_push_all c (l ++ [v]) = .error e := by
  induction l with
  | nil =>
    intro c c1 v e h1 h2
    simp only [stack_push_all, pure, Except.pure, Except.ok.injEq] at h1
    subst h1
    simp [stack_push_all, h2, bind, Except.bind]
  | cons a l ih =>
    intro c c1 v e h1 h2
    rw [stack_push_all] at h1
    cases hp : chip8_stack_push c a with
    | error e0 => simp [hp, bind, Except.bind] at h1
    | ok c0 =>
      simp only [hp, bind, Except.bind] at h1
      have := ih c0 c1 v e h1 h2
      simp [stack_push_all, hp, this, bind, Except.bind]

/-- C5: the check of `chip8_stack_in_bounds` passes for every stack pointer below 32,
the size in bytes of the array, and not only below the entry count 16.  So
`chip8_stack_push` on a machine whose stack pointer is 15 passes the check with the
pointer at 16 and goes on to the store into `stack[16]`, past the last of the 16
entries, instead of stopping on the assertion, which stops a push only from a stack
pointer in `31..254`.  From a reset machine 15 pushes return and the 16th reaches that
store. -/
theorem C5_push_at_15_passes_bounds_check (c : chip8) (v : UShort) :
    (∀ c0 : chip8, chip8_stack_in_bounds c0 = .ok () ↔ c0.registers.SP.val < 32) ∧
    (∀ (c0 : chip8) (v0 : UShort), chip8_stack_push c0 v0 = .error .assertFailed
      ↔ 31 ≤ c0.registers.SP.val ∧ c0.registers.SP.val ≤ 254) ∧
    chip8_stack_in_bounds ((c.set_SP 15).set_SP (toUChar (15 + 1))) = .ok () ∧
    chip8_stack_push (c.set_SP 15) v = .error .outOfArray ∧
    chip8_stack_push (c.set_SP 15) v ≠ .error .assertFailed ∧
    (∃ c15, stack_push_all (chip8_init c) (List.replicate 15 v) = .ok c15 ∧
      c15.registers.SP.val = 15) ∧
    stack_push_all (chip8_init c) (List.replicate 16 v) = .error .outOfArray := by
  have h15 : chip8_stack_push (c.set_SP 15) v = .error .outOfArray :=
    chip8_stack_push_at_15 _ v rfl
  obtain ⟨c15, _, hp, hsp, _⟩ :=
    stack_push_all_pop_n (List.replicate 15 v) (chip8_init c)
      (by simp [chip8_init, chip8_zeroed])
  have hsp15 : c15.registers.SP.val = 15 := by
    rw [hsp]; rfl
  refine ⟨chip8_stack_in_bounds_iff, chip8_stack_push_assert_iff, ?_, h15, ?_,
    ⟨c15, hp, hsp15⟩, ?_⟩
  · rw [chip8_stack_in_bounds_iff]
    show (16 : Nat) < 32
    decide
  · rw [h15]; simp
  · exact stack_push_all_snoc_error (List.replicate 15 v) _ c15 v _ hp
      (chip8_stack_push_at_15 c15 v hsp15)

/-! ## Decoding of the opcode fields -/

theorem shr12_and_0xf000 (op : Nat) : (op &&& 0xf000) >>> 12 = (op >>> 12) &&& 0x000f := by
  apply Nat.eq_of_testBit_eq
  intro j
  have key : Nat.testBit 0xf000 (12 + j) = Nat.testBit 0x000f j := by
    have e : (0xf000 : Nat) = 0x000f <<< 12 := by decide
    rw [e, Nat.testBit_shiftLeft]
    simp
  simp [key]

theorem and_0xf000 (op : Nat) : op &&& 0xf000 = (op / 4096 % 16) * 4096 := by
  have h1 : (op &&& 0xf000) % 4096 = 0 := by
    have := Nat.and_pow_two_sub_one_eq_mod (op &&& 0xf000) 12
    rw [← this, Nat.and_assoc]
    have h : (0xf000 &&& (2 ^ 12 - 1)) = 0 := by decide
    rw [h]; simp
  have h2 : (op &&& 0xf000) / 4096 = op / 4096 % 16 := by
    have h := shr12_and_0xf000 op
    rw [Nat.shiftRight_eq_div_pow, Nat.shiftRight_eq_div_pow] at h
    have h4 := Nat.and_pow_two_sub_one_eq_mod (op / 2 ^ 12) 4
    simp only [Nat.reducePow, Nat.add_one_sub_one] at h h4 ⊢
    omega
  omega

theorem and_0x0fff (op : Nat) : op &&& 0x0fff = op % 4096 :=
  Nat.and_pow_two_sub_one_eq_mod op 12

theorem and_0x00ff (op : Nat) : op &&& 0x00ff = op % 256 :=
  Nat.and_pow_two_sub_one_eq_mod op 8

theorem and_0x000f (op : Nat) : op &&& 0x000f = op % 16 :=
  Nat.and_pow_two_sub_one_eq_mod op 4

theorem shr8_and_0x000f (op : Nat) : (op >>> 8) &&& 0x000f = op / 256 % 16 := by
  rw [and_0x000f, Nat.shiftRight_eq_div_pow]

theorem shr4_and_0x000f (op : Nat) : (op >>> 4) &&& 0x000f = op / 16 % 16 := by
  rw [and_0x000f, Nat.shiftRight_eq_div_pow]

/-! ## The effect of single instructions -/

theorem chip8_exec_00EE (env : Collaborators) (c : chip8) :
    chip8_exec env c 0x00EE = (chip8_stack_pop c).bind fun r => .ok (r.2.set_PC r.1) := rfl

theorem chip8_exec_2nnn (env : Collaborators) (c : chip8) (nnn : Nat) (hn : nnn < 4096) :
    chip8_exec env c (0x2000 + nnn)
      = (chip8_stack_push c c.registers.PC).bind fun c1 => .ok (c1.set_PC (toUShort nnn)) := by
  have h1 : (0x2000 + nnn) &&& 0xf000 = 0x2000 := by rw [and_0xf000]; omega
  have h2 : (0x2000 + nnn) &&& 0x0fff = nnn := by rw [and_0x0fff]; omega
  unfold chip8_exec
  split
  · omega
  · omega
  · simp only [chip8_exec_extended, h1, h2]
    rfl

theorem chip8_exec_6xkk (env : Collaborators) (c : chip8) (x kk : Nat) (hx : x < 16)
    (hkk : kk < 256) :
    chip8_exec env c (0x6000 + x * 256 + kk) = .ok (c.set_V x (toUChar kk)) := by
  have h1 : (0x6000 + x * 256 + kk) &&& 0xf000 = 0x6000 := by rw [and_0xf000]; omega
  have h2 : ((0x6000 + x * 256 + kk) >>> 8) &&& 0x000f = x := by
    rw [shr8_and_0x000f]; omega
  have h3 : (0x6000 + x * 256 + kk) &&& 0x00ff = kk := by rw [and_0x00ff]; omega
  unfold chip8_exec
  split
  · omega
  · omega
  · simp only [chip8_exec_extended, h1, h2, h3]
    rfl

theorem chip8_exec_7xkk (env : Collaborators) (c : chip8) (x kk : Nat) (hx : x < 16)
    (hkk : kk < 256) :
    chip8_exec env c (0x7000 + x * 256 + kk)
      = .ok (c.set_V x (toUChar ((c.registers.V x).val + kk))) := by
  have h1 : (0x7000 + x * 256 + kk) &&& 0xf000 = 0x7000 := by rw [and_0xf000]; omega
  have h2 : ((0x7000 + x * 256 + kk) >>> 8) &&& 0x000f = x := by
    rw [shr8_and_0x000f]; omega
  have h3 : (0x7000 + x * 256 + kk) &&& 0x00ff = kk := by rw [and_0x00ff]; omega
  unfold chip8_exec
  split
  · omega
  · omega
  · simp only [chip8_exec_extended, h1, h2, h3]
    rfl

theorem chip8_exec_8xyn (env : Collaborators) (c : chip8) (x y n : Nat) (hx : x < 16)
    (hy : y < 16) (hn : n < 16) :
    chip8_exec env c (0x8000 + x * 256 + y * 16 + n)
      = .ok (chip8_exec_extended_eight c (0x8000 + x * 256 + y * 16 + n)) := by
  have h1 : (0x8000 + x * 256 + y * 16 + n) &&& 0xf000 = 0x8000 := by
    rw [and_0xf000]; omega
  unfold chip8_exec
  split
  · omega
  · omega
  · simp only [chip8_exec_extended, h1]
    rfl

theorem chip8_exec_extended_eight_fields (x y n : Nat) (hx : x < 16) (hy : y < 16)
    (hn : n < 16) :
    ((0x8000 + x * 256 + y * 16 + n) >>> 8) &&& 0x000f = x ∧
    ((0x8000 + x * 256 + y * 16 + n) >>> 4) &&& 0x000f = y ∧
    (0x8000 + x * 256 + y * 16 + n) &&& 0x000f = n := by
  rw [shr8_and_0x000f, shr4_and_0x000f, and_0x000f]
  omega

theorem chip8_exec_extended_eight_4 (c : chip8) (x y : Nat) (hx : x < 16) (hy : y < 16) :
    chip8_exec_extended_eight c (0x8000 + x * 256 + y * 16 + 4)
      = (if (toUShort ((c.registers.V x).val + (c.registers.V y).val)).val > 0xff
          then (c.set_V 0x0f (toUChar 0)).set_V 0x0f (toUChar 1)
          else c.set_V 0x0f (toUChar 0)).set_V x
            (toUChar (toUShort ((c.registers.V x).val + (c.registers.V y).val)).val) := by
  obtain ⟨h1, h2, h3⟩ := chip8_exec_extended_eight_fields x y 4 hx hy (by decide)
  simp only [chip8_exec_extended_eight, h1, h2, h3]

theorem chip8_exec_extended_eight_5 (c : chip8) (x y : Nat) (hx : x < 16) (hy : y < 16) :
    chip8_exec_extended_eight c (0x8000 + x * 256 + y * 16 + 5)
      = (if ((c.set_V 0x0f (toUChar 0)).registers.V x).val
              > ((c.set_V 0x0f (toUChar 0)).registers.V y).val
          then (c.set_V 0x0f (toUChar 0)).set_V 0x0f (toUChar 1)
          else c.set_V 0x0f (toUChar 0)).set_V x
            (toUCharI
              ((((if ((c.set_V 0x0f (toUChar 0)).registers.V x).val
                      > ((c.set_V 0x0f (toUChar 0)).registers.V y).val
                  then (c.set_V 0x0f (toUChar 0)).set_V 0x0f (toUChar 1)
                  else c.set_V 0x0f (toUChar 0)).registers.V x).val : Int)
              - (((if ((c.set_V 0x0f (toUChar 0)).registers.V x).val
                      > ((c.set_V 0x0f (toUChar 0)).registers.V y).val
                  then (c.set_V 0x0f (toUChar 0)).set_V 0x0f (toUChar 1)
                  else c.set_V 0x0f (toUChar 0)).registers.V y).val : Int))) := by
  obtain ⟨h1, h2, h3⟩ := chip8_exec_extended_eight_fields x y 5 hx hy (by decide)
  simp only [chip8_exec_extended_eight, h1, h2, h3]

theorem chip8_exec_extended_eight_6 (c : chip8) (x y : Nat) (hx : x < 16) (hy : y < 16) :
    chip8_exec_extended_eight c (0x8000 + x * 256 + y * 16 + 6)
      = (c.set_V 0x0f (toUChar ((c.registers.V x).val &&& 0b00000001))).set_V x
          (toUChar (((c.set_V 0x0f
            (toUChar ((c.registers.V x).val &&& 0b00000001))).registers.V x).val / 2)) := by
  obtain ⟨h1, h2, h3⟩ := chip8_exec_extended_eight_fields x y 6 hx hy (by decide)
  simp only [chip8_exec_extended_eight, h1, h2, h3]

/-! ## Claims on the execution engine -/

/-- C6: on a machine with `PC = p` and stack pointer `s ≤ 14`, `chip8_exec` of `0x2nnn`
gives `PC = nnn`, stack pointer `s + 1` and `p` in the stack slot `s + 1`; `chip8_exec`
of `0x00EE` after it gives `PC = p` and stack pointer `s`; the V registers, `I`, the
timers and the memory are unchanged by both. -/
theorem C6_call_then_ret (env : Collaborators) (c : chip8) (nnn : Nat)
    (hs : c.registers.SP.val ≤ 14) (hn : nnn < 4096) :
    ∃ c1 c2, chip8_exec env c (0x2000 + nnn) = .ok c1 ∧
      c1.registers.PC.val = nnn ∧
      c1.registers.SP.val = c.registers.SP.val + 1 ∧
      c1.stack.stack (c.registers.SP.val + 1) = c.registers.PC ∧
      chip8_exec env c1 0x00EE = .ok c2 ∧
      c2.registers.PC = c.registers.PC ∧
      c2.registers.SP = c.registers.SP ∧
      (c1.registers.V = c.registers.V ∧ c1.registers.I = c.registers.I ∧
        c1.registers.delay_timer = c.registers.delay_timer ∧
        c1.registers.sound_timer = c.registers.sound_timer ∧ c1.memory = c.memory) ∧
      (c2.registers.V = c.registers.V ∧ c2.registers.I = c.registers.I ∧
        c2.registers.delay_timer = c.registers.delay_timer ∧
        c2.registers.sound_timer = c.registers.sound_timer ∧ c2.memory = c.memory) := by
  obtain ⟨c0, hpush, hreg0, hsp0, hmem0, _, _, hst0⟩ :=
    chip8_stack_push_ok c c.registers.PC hs
  have hpop := chip8_stack_pop_ok (c0.set_PC (toUShort nnn))
    (by show c0.registers.SP.val ≤ 15; omega)
  have hz : toUCharI ((c0.registers.SP.val : Int) - 1) = c.registers.SP := by
    apply Fin.ext
    simp only [toUCharI, hsp0]
    omega
  have htop : c0.stack.stack c0.registers.SP.val = c.registers.PC := by
    rw [hsp0, hst0]; simp
  refine ⟨c0.set_PC (toUShort nnn),
    ((c0.set_PC (toUShort nnn)).set_SP (toUCharI ((c0.registers.SP.val : Int) - 1))).set_PC
      (c0.stack.stack c0.registers.SP.val), ?_, ?_, hsp0, ?_, ?_, ?_, ?_, ?_, ?_⟩
  · rw [chip8_exec_2nnn env c nnn hn, hpush]; rfl
  · show nnn % 65536 = nnn
    omega
  · show c0.stack.stack (c.registers.SP.val + 1) = c.registers.PC
    rw [hst0]; simp
  · rw [chip8_exec_00EE, hpop]; rfl
  · exact htop
  · exact hz
  · simp only [chip8.set_PC, hreg0, hmem0, and_self]
  · simp only [chip8.set_PC, chip8.set_SP, hreg0, hmem0, and_self]

theorem C6_call_then_ret_witness :
    (((chip8_init chip8_zeroed).set_PC 0x200).registers.SP.val ≤ 14 ∧ 0x300 < 4096) ∧
    ∃ c1 c2,
      chip8_exec ⟨fun s => .ok s, fun s _ _ _ _ => .ok (false, s), fun _ _ => .ok false,
          fun _ _ => -1, [], 0⟩ ((chip8_init chip8_zeroed).set_PC 0x200) (0x2000 + 0x300)
        = .ok c1 ∧
      c1.registers.PC.val = 0x300 ∧
      c1.registers.SP.val = ((chip8_init chip8_zeroed).set_PC 0x200).registers.SP.val + 1 ∧
      c1.stack.stack (((chip8_init chip8_zeroed).set_PC 0x200).registers.SP.val + 1)
        = ((chip8_init chip8_zeroed).set_PC 0x200).registers.PC ∧
      chip8_exec ⟨fun s => .ok s, fun s _ _ _ _ => .ok (false, s), fun _ _ => .ok false,
          fun _ _ => -1, [], 0⟩ c1 0x00EE = .ok c2 ∧
      c2.registers.PC = ((chip8_init chip8_zeroed).set_PC 0x200).registers.PC ∧
      c2.registers.SP = ((chip8_init chip8_zeroed).set_PC 0x200).registers.SP ∧
      (c1.registers.V = ((chip8_init chip8_zeroed).set_PC 0x200).registers.V ∧
        c1.registers.I = ((chip8_init chip8_zeroed).set_PC 0x200).registers.I ∧
        c1.registers.delay_timer
          = ((chip8_init chip8_zeroed).set_PC 0x200).registers.delay_timer ∧
        c1.registers.sound_timer
          = ((chip8_init chip8_zeroed).set_PC 0x200).registers.sound_timer ∧
        c1.memory = ((chip8_init chip8_zeroed).set_PC 0x200).memory) ∧
      (c2.registers.V = ((chip8_init chip8_zeroed).set_PC 0x200).registers.V ∧
        c2.registers.I = ((chip8_init chip8_zeroed).set_PC 0x200).registers.I ∧
        c2.registers.delay_timer
          = ((chip8_init chip8_zeroed).set_PC 0x200).registers.delay_timer ∧
        c2.registers.sound_timer
          = ((chip8_init chip8_zeroed).set_PC 0x200).registers.sound_timer ∧
        c2.memory = ((chip8_init chip8_zeroed).set_PC 0x200).memory) :=
  ⟨by decide, C6_call_then_ret _ ((chip8_init chip8_zeroed).set_PC 0x200) 0x300
    (by decide) (by decide)⟩

/-- C7: for a register index `x` in `0..15` and bytes `kk`, `kk2`, `chip8_exec` of
`0x6xkk` followed by `chip8_exec` of `0x7x(kk2)` leaves `V[x] = (kk + kk2) mod 256`; every
other V register, `I`, `PC`, the stack pointer and the memory are unchanged, and so are
the timers and the stack. -/
theorem C7_load_then_add_wraps (env : Collaborators) (c : chip8) (x kk kk2 : Nat)
    (hx : x < 16) (hkk : kk < 256) (hkk2 : kk2 < 256) :
    ∃ c1 c2, chip8_exec env c (0x6000 + x * 256 + kk) = .ok c1 ∧
      chip8_exec env c1 (0x7000 + x * 256 + kk2) = .ok c2 ∧
      (c2.registers.V x).val = (kk + kk2) % 256 ∧
      (∀ j, j ≠ x → c2.registers.V j = c.registers.V j) ∧
      c2.registers.I = c.registers.I ∧ c2.registers.PC = c.registers.PC ∧
      c2.registers.SP = c.registers.SP ∧ c2.memory = c.memory ∧
      c2.registers.delay_timer = c.registers.delay_timer ∧
      c2.registers.sound_timer = c.registers.sound_timer ∧ c2.stack = c.stack := by
  refine ⟨_, _, chip8_exec_6xkk env c x kk hx hkk, chip8_exec_7xkk env _ x kk2 hx hkk2,
    ?_, ?_, rfl, rfl, rfl, rfl, rfl, rfl, rfl⟩
  · simp only [chip8.set_V, toUChar, if_true]
    omega
  · intro j hj
    simp [chip8.set_V, hj]

theorem C7_load_then_add_wraps_witness :
    (5 < 16 ∧ 0xF0 < 256 ∧ 0x20 < 256) ∧
    ∃ c1 c2,
      chip8_exec ⟨fun s => .ok s, fun s _ _ _ _ => .ok (false, s), fun _ _ => .ok false,
          fun _ _ => -1, [], 0⟩ chip8_zeroed (0x6000 + 5 * 256 + 0xF0) = .ok c1 ∧
      chip8_exec ⟨fun s => .ok s, fun s _ _ _ _ => .ok (false, s), fun _ _ => .ok false,
          fun _ _ => -1, [], 0⟩ c1 (0x7000 + 5 * 256 + 0x20) = .ok c2 ∧
      (c2.registers.V 5).val = (0xF0 + 0x20) % 256 ∧
      (∀ j, j ≠ 5 → c2.registers.V j = chip8_zeroed.registers.V j) ∧
      c2.registers.I = chip8_zeroed.registers.I ∧
      c2.registers.PC = chip8_zeroed.registers.PC ∧
      c2.registers.SP = chip8_zeroed.registers.SP ∧ c2.memory = chip8_zeroed.memory ∧
      c2.registers.delay_timer = chip8_zeroed.registers.delay_timer ∧
      c2.registers.sound_timer = chip8_zeroed.registers.sound_timer ∧
      c2.stack = chip8_zeroed.stack :=
  ⟨by decide, C7_load_then_add_wraps _ chip8_zeroed 5 0xF0 0x20 (by decide) (by decide)
    (by decide)⟩

/-- C8: for `x`, `y` in `0..15`, after `chip8_exec` of `0x8xy4` the register `V[x]`
holds `(V[x] + V[y]) mod 256` of the values before (also when `x = 0xF`); when
`x ≠ 0xF` the register `VF` holds 1 if the sum of the values before exceeds 255 and 0
otherwise; every V register other than `V[x]` and `VF` is unchanged. -/
theorem C8_add_registers_carry (env : Collaborators) (c : chip8) (x y : Nat)
    (hx : x < 16) (hy : y < 16) :
    ∃ c1, chip8_exec env c (0x8000 + x * 256 + y * 16 + 4) = .ok c1 ∧
      (c1.registers.V x).val = ((c.registers.V x).val + (c.registers.V y).val) % 256 ∧
      (x ≠ 0xF → (c1.registers.V 0xF).val
        = if (c.registers.V x).val + (c.registers.V y).val > 255 then 1 else 0) ∧
      (∀ j, j ≠ x → j ≠ 0xF → c1.registers.V j = c.registers.V j) := by
  have hvx := (c.registers.V x).isLt
  have hvy := (c.registers.V y).isLt
  have htmp : (toUShort ((c.registers.V x).val + (c.registers.V y).val)).val
      = (c.registers.V x).val + (c.registers.V y).val := by
    simp only [toUShort]; omega
  have hex := (chip8_exec_8xyn env c x y 4 hx hy (by decide)).trans
    (congrArg Except.ok (chip8_exec_extended_eight_4 c x y hx hy))
  refine ⟨_, hex, ?_, ?_, ?_⟩
  · simp only [htmp, chip8.set_V, toUChar, if_true]
  · intro hxf
    have hfx : ¬ ((0xF : Nat) = x) := fun h => hxf h.symm
    simp only [htmp]
    by_cases hc : (c.registers.V x).val + (c.registers.V y).val > 255
    · simp [hc, chip8.set_V, toUChar, hfx]
    · simp [hc, chip8.set_V, toUChar, hfx]
  · intro j hjx hjf
    simp only [htmp]
    by_cases hc : (c.registers.V x).val + (c.registers.V y).val > 255
    · simp [hc, chip8.set_V, hjx, hjf]
    · simp [hc, chip8.set_V, hjx, hjf]

theorem C8_add_registers_carry_witness :
    (0 < 16 ∧ 1 < 16) ∧
    ∃ c1,
      chip8_exec ⟨fun s => .ok s, fun s _ _ _ _ => .ok (false, s), fun _ _ => .ok false,
          fun _ _ => -1, [], 0⟩ ((chip8_zeroed.set_V 0 0xFF).set_V 1 0x01)
          (0x8000 + 0 * 256 + 1 * 16 + 4) = .ok c1 ∧
      (c1.registers.V 0).val
        = ((((chip8_zeroed.set_V 0 0xFF).set_V 1 0x01).registers.V 0).val
            + (((chip8_zeroed.set_V 0 0xFF).set_V 1 0x01).registers.V 1).val) % 256 ∧
      (0 ≠ 0xF → (c1.registers.V 0xF).val
        = if (((chip8_zeroed.set_V 0 0xFF).set_V 1 0x01).registers.V 0).val
            + (((chip8_zeroed.set_V 0 0xFF).set_V 1 0x01).registers.V 1).val > 255
          then 1 else 0) ∧
      (∀ j, j ≠ 0 → j ≠ 0xF →
        c1.registers.V j = ((chip8_zeroed.set_V 0 0xFF).set_V 1 0x01).registers.V j) :=
  ⟨by decide, C8_add_registers_carry _ ((chip8_zeroed.set_V 0 0xFF).set_V 1 0x01) 0 1
    (by decide) (by decide)⟩

/-- C9: for `x`, `y` in `0..14`, after `chip8_exec` of `0x8xy5` the register `VF` is 1
if `V[x] > V[y]` held before and 0 otherwise (0 when they are equal), and `V[x]` is
`(V[x] - V[y]) mod 256` of the values before. -/
theorem C9_sub_registers_flag (env : Collaborators) (c : chip8) (x y : Nat)
    (hx : x ≤ 14) (hy : y ≤ 14) :
    ∃ c1, chip8_exec env c (0x8000 + x * 256 + y * 16 + 5) = .ok c1 ∧
      ((c1.registers.V 0xF).val
        = if (c.registers.V x).val > (c.registers.V y).val then 1 else 0) ∧
      ((c.registers.V x).val = (c.registers.V y).val → (c1.registers.V 0xF).val = 0) ∧
      ((c1.registers.V x).val : Int)
        = (((c.registers.V x).val : Int) - ((c.registers.V y).val : Int)) % 256 := by
  have hxf : ¬ (x = 0xF) := by omega
  have hyf : ¬ (y = 0xF) := by omega
  have hfx : ¬ ((0xF : Nat) = x) := by omega
  have hflag : (∃ c1, chip8_exec env c (0x8000 + x * 256 + y * 16 + 5) = .ok c1 ∧
      ((c1.registers.V 0xF).val
        = if (c.registers.V x).val > (c.registers.V y).val then 1 else 0) ∧
      ((c1.registers.V x).val : Int)
        = (((c.registers.V x).val : Int) - ((c.registers.V y).val : Int)) % 256) := by
    have hex := (chip8_exec_8xyn env c x y 5 (by omega) (by omega) (by decide)).trans
      (congrArg Except.ok (chip8_exec_extended_eight_5 c x y (by omega) (by omega)))
    refine ⟨_, hex, ?_, ?_⟩
    · by_cases hc : (c.registers.V x).val > (c.registers.V y).val
      · simp [hc, chip8.set_V, toUChar, hxf, hyf, hfx]
      · simp [hc, chip8.set_V, toUChar, hxf, hyf, hfx]
    · by_cases hc : (c.registers.V x).val > (c.registers.V y).val
      · simp [hc, chip8.set_V, toUChar, toUCharI, hxf, hyf]
        omega
      · simp [hc, chip8.set_V, toUChar, toUCharI, hxf, hyf]
        omega
  obtain ⟨c1, h1, h2, h3⟩ := hflag
  refine ⟨c1, h1, h2, ?_, h3⟩
  intro heq
  rw [h2, heq]
  simp

theorem C9_sub_registers_flag_witness :
    (0 ≤ 14 ∧ 1 ≤ 14) ∧
    ∃ c1,
      chip8_exec ⟨fun s => .ok s, fun s _ _ _ _ => .ok (false, s), fun _ _ => .ok false,
          fun _ _ => -1, [], 0⟩ ((chip8_zeroed.set_V 0 0x03).set_V 1 0x05)
          (0x8000 + 0 * 256 + 1 * 16 + 5) = .ok c1 ∧
      ((c1.registers.V 0xF).val
        = if (((chip8_zeroed.set_V 0 0x03).set_V 1 0x05).registers.V 0).val
            > (((chip8_zeroed.set_V 0 0x03).set_V 1 0x05).registers.V 1).val
          then 1 else 0) ∧
      ((((chip8_zeroed.set_V 0 0x03).set_V 1 0x05).registers.V 0).val
          = (((chip8_zeroed.set_V 0 0x03).set_V 1 0x05).registers.V 1).val →
        (c1.registers.V 0xF).val = 0) ∧
      ((c1.registers.V 0).val : Int)
        = (((((chip8_zeroed.set_V 0 0x03).set_V 1 0x05).registers.V 0).val : Int)
            - ((((chip8_zeroed.set_V 0 0x03).set_V 1 0x05).registers.V 1).val : Int)) % 256 :=
  ⟨by decide, C9_sub_registers_flag _ ((chip8_zeroed.set_V 0 0x03).set_V 1 0x05) 0 1
    (by decide) (by decide)⟩

/-- C10: for `x` in `0..14` and every `y`, after `chip8_exec` of `0x8xy6` the register
`VF` is `V[x] mod 2` and `V[x]` is `V[x] / 2` (rounded down) of the value before, so that
the value before is `2 * V[x] + VF`; the division equals a right shift by one bit; the
resulting state does not depend on `y`. -/
theorem C10_shift_right_flag (env : Collaborators) (c : chip8) (x y y2 : Nat)
    (hx : x ≤ 14) (hy : y < 16) (hy2 : y2 < 16) :
    ∃ c1, chip8_exec env c (0x8000 + x * 256 + y * 16 + 6) = .ok c1 ∧
      (c1.registers.V 0xF).val = (c.registers.V x).val % 2 ∧
      (c1.registers.V x).val = (c.registers.V x).val / 2 ∧
      (c.registers.V x).val = 2 * (c1.registers.V x).val + (c1.registers.V 0xF).val ∧
      (c.registers.V x).val / 2 = (c.registers.V x).val >>> 1 ∧
      chip8_exec env c (0x8000 + x * 256 + y2 * 16 + 6) = .ok c1 ∧
      c1 = (c.set_V 0xF (toUChar ((c.registers.V x).val % 2))).set_V x
            (toUChar ((c.registers.V x).val / 2)) := by
  have hvx := (c.registers.V x).isLt
  have hxf : ¬ (x = 0xF) := by omega
  have hfx : ¬ ((0xF : Nat) = x) := by omega
  have hstate : ∀ y0, y0 < 16 → chip8_exec env c (0x8000 + x * 256 + y0 * 16 + 6)
      = .ok ((c.set_V 0xF (toUChar ((c.registers.V x).val % 2))).set_V x
            (toUChar ((c.registers.V x).val / 2))) := by
    intro y0 hy0
    rw [chip8_exec_8xyn env c x y0 6 (by omega) hy0 (by decide),
      chip8_exec_extended_eight_6 c x y0 (by omega) hy0, Nat.and_one_is_mod]
    simp [chip8.set_V, hxf]
  have e1 : ((c.set_V 0xF (toUChar ((c.registers.V x).val % 2))).set_V x
      (toUChar ((c.registers.V x).val / 2))).registers.V 0xF
      = toUChar ((c.registers.V x).val % 2) := by
    simp [chip8.set_V, hfx]
  have e2 : ((c.set_V 0xF (toUChar ((c.registers.V x).val % 2))).set_V x
      (toUChar ((c.registers.V x).val / 2))).registers.V x
      = toUChar ((c.registers.V x).val / 2) := by
    simp [chip8.set_V]
  refine ⟨_, hstate y hy, ?_, ?_, ?_, ?_, hstate y2 hy2, rfl⟩
  · rw [e1]; simp only [toUChar]; omega
  · rw [e2]; simp only [toUChar]; omega
  · rw [e1, e2]; simp only [toUChar]; omega
  · rw [Nat.shiftRight_eq_div_pow]

theorem C10_shift_right_flag_witness :
    (0 ≤ 14 ∧ 3 < 16 ∧ 9 < 16) ∧
    ∃ c1,
      chip8_exec ⟨fun s => .ok s, fun s _ _ _ _ => .ok (false, s), fun _ _ => .ok false,
          fun _ _ => -1, [], 0⟩ (chip8_zeroed.set_V 0 0x07)
          (0x8000 + 0 * 256 + 3 * 16 + 6) = .ok c1 ∧
      (c1.registers.V 0xF).val = ((chip8_zeroed.set_V 0 0x07).registers.V 0).val % 2 ∧
      (c1.registers.V 0).val = ((chip8_zeroed.set_V 0 0x07).registers.V 0).val / 2 ∧
      ((chip8_zeroed.set_V 0 0x07).registers.V 0).val
        = 2 * (c1.registers.V 0).val + (c1.registers.V 0xF).val ∧
      ((chip8_zeroed.set_V 0 0x07).registers.V 0).val / 2
        = ((chip8_zeroed.set_V 0 0x07).registers.V 0).val >>> 1 ∧
      chip8_exec ⟨fun s => .ok s, fun s _ _ _ _ => .ok (false, s), fun _ _ => .ok false,
          fun _ _ => -1, [], 0⟩ (chip8_zeroed.set_V 0 0x07)
          (0x8000 + 0 * 256 + 9 * 16 + 6) = .ok c1 ∧
      c1 = ((chip8_zeroed.set_V 0 0x07).set_V 0xF
              (toUChar (((chip8_zeroed.set_V 0 0x07).registers.V 0).val % 2))).set_V 0
            (toUChar (((chip8_zeroed.set_V 0 0x07).registers.V 0).val / 2)) :=
  ⟨by decide, C10_shift_right_flag _ (chip8_zeroed.set_V 0 0x07) 0 3 9
    (by decide) (by decide) (by decide)⟩

/-! ## The shift-left and reversed-subtract instructions -/

theorem chip8_exec_extended_eight_E (c : chip8) (x y : Nat) (hx : x < 16) (hy : y < 16) :
    chip8_exec_extended_eight c (0x8000 + x * 256 + y * 16 + 0xE)
      = (c.set_V 0x0f (toUChar ((c.registers.V x).val &&& 0b10000000))).set_V x
          (toUChar (((c.set_V 0x0f
            (toUChar ((c.registers.V x).val &&& 0b10000000))).registers.V x).val * 2)) := by
  obtain ⟨h1, h2, h3⟩ := chip8_exec_extended_eight_fields x y 0xE hx hy (by decide)
  simp only [chip8_exec_extended_eight, h1, h2, h3]

theorem chip8_exec_extended_eight_7 (c : chip8) (x y : Nat) (hx : x < 16) (hy : y < 16) :
    chip8_exec_extended_eight c (0x8000 + x * 256 + y * 16 + 7)
      = (c.set_V x
          (toUChar (if (c.registers.V y).val > (c.registers.V x).val then 1 else 0))).set_V x
          (toUCharI
            ((((c.set_V x (toUChar (if (c.registers.V y).val > (c.registers.V x).val
                then 1 else 0))).registers.V y).val : Int)
            - (((c.set_V x (toUChar (if (c.registers.V y).val > (c.registers.V x).val
                then 1 else 0))).registers.V x).val : Int))) := by
  obtain ⟨h1, h2, h3⟩ := chip8_exec_extended_eight_fields x y 7 hx hy (by decide)
  simp only [chip8_exec_extended_eight, h1, h2, h3]

theorem shr7_and_0x80 (v : Nat) : (v &&& 0b10000000) >>> 7 = (v >>> 7) &&& 1 := by
  apply Nat.eq_of_testBit_eq
  intro j
  have key : Nat.testBit 0b10000000 (7 + j) = Nat.testBit 1 j := by
    have e : (0b10000000 : Nat) = 1 <<< 7 := by decide
    rw [e, Nat.testBit_shiftLeft]
    simp
  simp only [Nat.testBit_shiftRight, Nat.testBit_and, key]

theorem and_0x80 (v : Nat) : v &&& 0b10000000 = (v / 128 % 2) * 128 := by
  have h1 : (v &&& 0b10000000) % 128 = 0 := by
    have := Nat.and_pow_two_sub_one_eq_mod (v &&& 0b10000000) 7
    rw [← this, Nat.and_assoc]
    have h : (0b10000000 &&& (2 ^ 7 - 1)) = 0 := by decide
    rw [h]; simp
  have h2 : (v &&& 0b10000000) / 128 = v / 128 % 2 := by
    have h := shr7_and_0x80 v
    rw [Nat.shiftRight_eq_div_pow, Nat.shiftRight_eq_div_pow, Nat.and_one_is_mod] at h
    simp only [Nat.reducePow] at h
    omega
  omega

/-- C11: for `x` in `0..14` and every `y`, after `chip8_exec` of `0x8xyE` the register
`VF` is the value before of `V[x]` masked with `0x80`, the masked bit itself (0 or 128),
and `V[x]` is twice its value before, modulo 256. -/
theorem C11_shift_left_flag (env : Collaborators) (c : chip8) (x y : Nat)
    (hx : x ≤ 14) (hy : y < 16) :
    ∃ c1, chip8_exec env c (0x8000 + x * 256 + y * 16 + 0xE) = .ok c1 ∧
      (c1.registers.V 0xF).val = (c.registers.V x).val &&& 0x80 ∧
      ((c1.registers.V 0xF).val = 0 ∨ (c1.registers.V 0xF).val = 128) ∧
      ((c1.registers.V 0xF).val = 128 ↔ 128 ≤ (c.registers.V x).val) ∧
      (c1.registers.V x).val = (2 * (c.registers.V x).val) % 256 := by
  have hvx := (c.registers.V x).isLt
  have hxf : ¬ (x = 0xF) := by omega
  have hfx : ¬ ((0xF : Nat) = x) := by omega
  have hex := (chip8_exec_8xyn env c x y 0xE (by omega) hy (by decide)).trans
    (congrArg Except.ok (chip8_exec_extended_eight_E c x y (by omega) hy))
  have hmask := and_0x80 (c.registers.V x).val
  have e1 : (((c.set_V 0x0f (toUChar ((c.registers.V x).val &&& 0b10000000))).set_V x
      (toUChar (((c.set_V 0x0f
        (toUChar ((c.registers.V x).val &&& 0b10000000))).registers.V x).val * 2))).registers.V
        0xF).val = (c.registers.V x).val &&& 0b10000000 := by
    simp only [chip8.set_V, hfx, if_false, if_true, toUChar]
    omega
  have e2 : (((c.set_V 0x0f (toUChar ((c.registers.V x).val &&& 0b10000000))).set_V x
      (toUChar (((c.set_V 0x0f
        (toUChar ((c.registers.V x).val &&& 0b10000000))).registers.V x).val * 2))).registers.V
        x).val = (2 * (c.registers.V x).val) % 256 := by
    simp only [chip8.set_V, hxf, if_false, if_true, toUChar]
    omega
  refine ⟨_, hex, e1, ?_, ?_, e2⟩
  · rw [e1]; omega
  · rw [e1]; omega

theorem C11_shift_left_flag_witness :
    (0 ≤ 14 ∧ 3 < 16) ∧
    ∃ c1,
      chip8_exec ⟨fun s => .ok s, fun s _ _ _ _ => .ok (false, s), fun _ _ => .ok false,
          fun _ _ => -1, [], 0⟩ (chip8_zeroed.set_V 0 0x81)
          (0x8000 + 0 * 256 + 3 * 16 + 0xE) = .ok c1 ∧
      (c1.registers.V 0xF).val = ((chip8_zeroed.set_V 0 0x81).registers.V 0).val &&& 0x80 ∧
      ((c1.registers.V 0xF).val = 0 ∨ (c1.registers.V 0xF).val = 128) ∧
      ((c1.registers.V 0xF).val = 128
        ↔ 128 ≤ ((chip8_zeroed.set_V 0 0x81).registers.V 0).val) ∧
      (c1.registers.V 0).val
        = (2 * ((chip8_zeroed.set_V 0 0x81).registers.V 0).val) % 256 :=
  ⟨by decide, C11_shift_left_flag _ (chip8_zeroed.set_V 0 0x81) 0 3 (by decide) (by decide)⟩

/-- C12, as stated, fails when `x = y`: on the machine with `V[0] = 5`, `chip8_exec` of
`0x8007` leaves `V[0] = 0`, and not `(V[0] - b) mod 256 = 5`, because the second
assignment reads the `V[y]` that the first one has just overwritten. -/
theorem C12_counterexample_same_register :
    ∃ c1,
      chip8_exec ⟨fun s => .ok s, fun s _ _ _ _ => .ok (false, s), fun _ _ => .ok false,
          fun _ _ => -1, [], 0⟩ (chip8_zeroed.set_V 0 5) (0x8000 + 0 * 256 + 0 * 16 + 7)
        = .ok c1 ∧
      (c1.registers.V 0).val = 0 ∧
      ¬ (((c1.registers.V 0).val : Int)
          = ((((chip8_zeroed.set_V 0 5).registers.V 0).val : Int)
              - (if ((chip8_zeroed.set_V 0 5).registers.V 0).val
                    > ((chip8_zeroed.set_V 0 5).registers.V 0).val then 1 else 0)) % 256) := by
  refine ⟨_, rfl, by decide, by decide⟩

/-- C12, amended: for `x`, `y` in `0..15`, after `chip8_exec` of `0x8xy7` the register
`V[x]` is `(V[y] - b) mod 256` when `x ≠ y`, with `b = 1` if `V[y] > V[x]` held before and
0 otherwise, and it is 0 when `x = y`; the flag is not written to `VF`: every V register
other than `V[x]` is unchanged. -/
theorem C12_subn_flag_in_operand (env : Collaborators) (c : chip8) (x y : Nat)
    (hx : x < 16) (hy : y < 16) :
    ∃ c1, chip8_exec env c (0x8000 + x * 256 + y * 16 + 7) = .ok c1 ∧
      (x ≠ y → ((c1.registers.V x).val : Int)
        = (((c.registers.V y).val : Int)
            - (if (c.registers.V y).val > (c.registers.V x).val then 1 else 0)) % 256) ∧
      (x = y → (c1.registers.V x).val = 0) ∧
      (∀ j, j ≠ x → c1.registers.V j = c.registers.V j) := by
  have hvy := (c.registers.V y).isLt
  have hex := (chip8_exec_8xyn env c x y 7 hx hy (by decide)).trans
    (congrArg Except.ok (chip8_exec_extended_eight_7 c x y hx hy))
  refine ⟨_, hex, ?_, ?_, ?_⟩
  · intro hxy
    have hyx : ¬ (y = x) := fun h => hxy h.symm
    by_cases hc : (c.registers.V y).val > (c.registers.V x).val
    · simp [hc, chip8.set_V, toUChar, toUCharI, hyx]
      omega
    · simp [hc, chip8.set_V, toUChar, toUCharI, hyx]
      omega
  · intro hxy
    subst hxy
    simp [chip8.set_V, toUChar, toUCharI]
  · intro j hj
    simp [chip8.set_V, hj]

theorem C12_subn_flag_in_operand_witness :
    (0 < 16 ∧ 1 < 16) ∧
    ∃ c1,
      chip8_exec ⟨fun s => .ok s, fun s _ _ _ _ => .ok (false, s), fun _ _ => .ok false,
          fun _ _ => -1, [], 0⟩ ((chip8_zeroed.set_V 0 3).set_V 1 9)
          (0x8000 + 0 * 256 + 1 * 16 + 7) = .ok c1 ∧
      (0 ≠ 1 → ((c1.registers.V 0).val : Int)
        = (((((chip8_zeroed.set_V 0 3).set_V 1 9).registers.V 1).val : Int)
            - (if (((chip8_zeroed.set_V 0 3).set_V 1 9).registers.V 1).val
                  > (((chip8_zeroed.set_V 0 3).set_V 1 9).registers.V 0).val
                then 1 else 0)) % 256) ∧
      (0 = 1 → (c1.registers.V 0).val = 0) ∧
      (∀ j, j ≠ 0 → c1.registers.V j = ((chip8_zeroed.set_V 0 3).set_V 1 9).registers.V j) :=
  ⟨by decide, C12_subn_flag_in_operand _ ((chip8_zeroed.set_V 0 3).set_V 1 9) 0 1
    (by decide) (by decide)⟩

/-! ## The `Fx--` family and the register dump -/

theorem chip8_exec_Fxkk (env : Collaborators) (c : chip8) (x kk : Nat) (hx : x < 16)
    (hkk : kk < 256) :
    chip8_exec env c (0xF000 + x * 256 + kk)
      = chip8_exec_extended_F env c (0xF000 + x * 256 + kk) ∧
    ((0xF000 + x * 256 + kk) >>> 8) &&& 0x000f = x ∧
    (0xF000 + x * 256 + kk) &&& 0x00ff = kk := by
  have h1 : (0xF000 + x * 256 + kk) &&& 0xf000 = 0xF000 := by rw [and_0xf000]; omega
  refine ⟨?_, by rw [shr8_and_0x000f]; omega, by rw [and_0x00ff]; omega⟩
  unfold chip8_exec
  split
  · omega
  · omega
  · simp only [chip8_exec_extended, h1]

theorem chip8_exec_Fx55 (env : Collaborators) (c : chip8) (x : Nat) (hx : x < 16) :
    chip8_exec env c (0xF000 + x * 256 + 0x55) = chip8_store_registers_loop c (x + 1) 0 := by
  obtain ⟨h1, h2, h3⟩ := chip8_exec_Fxkk env c x 0x55 hx (by decide)
  rw [h1]
  simp only [chip8_exec_extended_F, h2, h3]

theorem chip8_exec_Fx33 (env : Collaborators) (c : chip8) (x : Nat) (hx : x < 16) :
    chip8_exec env c (0xF000 + x * 256 + 0x33)
      = (chip8_memory_set c.memory (c.registers.I.val : Int)
          (toUChar ((c.registers.V x).val / 100))).bind fun m1 =>
        (chip8_memory_set m1 ((c.registers.I.val : Int) + 1)
          (toUChar ((c.registers.V x).val / 10 % 10))).bind fun m2 =>
        (chip8_memory_set m2 ((c.registers.I.val : Int) + 2)
          (toUChar ((c.registers.V x).val % 10))).bind fun m3 =>
        chip8_store_registers_loop { c with memory := m3 } (x + 1) 0 := by
  obtain ⟨h1, h2, h3⟩ := chip8_exec_Fxkk env c x 0x33 hx (by decide)
  rw [h1]
  simp only [chip8_exec_extended_F, h2, h3]
  rfl

theorem chip8_exec_Fx29 (env : Collaborators) (c : chip8) (x : Nat) (hx : x < 16) :
    chip8_exec env c (0xF000 + x * 256 + 0x29)
      = .ok (c.set_I (toUShort ((c.registers.V x).val * CHIP8_DEFAULT_SPRITE_HEIGHT))) := by
  obtain ⟨h1, h2, h3⟩ := chip8_exec_Fxkk env c x 0x29 hx (by decide)
  rw [h1]
  simp only [chip8_exec_extended_F, h2, h3]
  rfl

theorem chip8_exec_Annn (env : Collaborators) (c : chip8) (nnn : Nat) (hn : nnn < 4096) :
    chip8_exec env c (0xA000 + nnn) = .ok (c.set_I (toUShort nnn)) := by
  have h1 : (0xA000 + nnn) &&& 0xf000 = 0xA000 := by rw [and_0xf000]; omega
  have h2 : (0xA000 + nnn) &&& 0x0fff = nnn := by rw [and_0x0fff]; omega
  unfold chip8_exec
  split
  · omega
  · omega
  · simp only [chip8_exec_extended, h1, h2]
    rfl

/-- The register dump loop: when the addresses fit in the memory it returns; it changes
the memory only, and there only the bytes `I + i .. I + i + n - 1`, which receive the
registers `V[i] .. V[i + n - 1]`. -/
theorem chip8_store_registers_loop_ok (n : Nat) : ∀ (c : chip8) (i : Nat),
    c.registers.I.val + i + n ≤ 4096 →
    ∃ c1, chip8_store_registers_loop c n i = .ok c1 ∧
      c1.registers = c.registers ∧ c1.stack = c.stack ∧ c1.keyboard = c.keyboard ∧
      c1.screen = c.screen ∧
      ∀ j, c1.memory.memory j
        = if c.registers.I.val + i ≤ j ∧ j < c.registers.I.val + i + n
          then c.registers.V (j - c.registers.I.val) else c.memory.memory j := by
  induction n with
  | zero =>
    intro c i _
    refine ⟨c, rfl, rfl, rfl, rfl, rfl, ?_⟩
    intro j
    have : ¬ (c.registers.I.val + i ≤ j ∧ j < c.registers.I.val + i + 0) := by omega
    rw [if_neg this]
  | succ n ih =>
    intro c i h
    have hset := chip8_memory_set_ok c.memory (c.registers.V i)
      (show (0 : Int) ≤ (c.registers.I.val : Int) + (i : Int) by omega)
      (show (c.registers.I.val : Int) + (i : Int) < 4096 by omega)
    have htn : ((c.registers.I.val : Int) + (i : Int)).toNat = c.registers.I.val + i := by
      omega
    rw [htn] at hset
    obtain ⟨c1, h1, hreg, hst, hkb, hscr, hmem⟩ :=
      ih { c with memory := { memory := fun j =>
        if j = c.registers.I.val + i then c.registers.V i else c.memory.memory j } } (i + 1)
        (by show c.registers.I.val + (i + 1) + n ≤ 4096; omega)
    refine ⟨c1, ?_, hreg, hst, hkb, hscr, ?_⟩
    · rw [chip8_store_registers_loop]
      simp only [hset, bind, Except.bind]
      exact h1
    · intro j
      rw [hmem j]
      show (if c.registers.I.val + (i + 1) ≤ j ∧ j < c.registers.I.val + (i + 1) + n
          then c.registers.V (j - c.registers.I.val)
          else if j = c.registers.I.val + i then c.registers.V i else c.memory.memory j) = _
      by_cases hj : j = c.registers.I.val + i
      · have h1 : ¬ (c.registers.I.val + (i + 1) ≤ j ∧ j < c.registers.I.val + (i + 1) + n) := by
          omega
        have h2 : c.registers.I.val + i ≤ j ∧ j < c.registers.I.val + i + (n + 1) := by omega
        have h3 : j - c.registers.I.val = i := by omega
        rw [if_neg h1, if_pos hj, if_pos h2, h3]
      · by_cases hr : c.registers.I.val + (i + 1) ≤ j ∧ j < c.registers.I.val + (i + 1) + n
        · have h2 : c.registers.I.val + i ≤ j ∧ j < c.registers.I.val + i + (n + 1) := by omega
          rw [if_pos hr, if_pos h2]
        · have h2 : ¬ (c.registers.I.val + i ≤ j ∧ j < c.registers.I.val + i + (n + 1)) := by
            omega
          rw [if_neg hr, if_neg hj, if_neg h2]

theorem chip8_memory_set_at (m : chip8_memory) (a : Nat) (val : UChar) (h : a < 4096) :
    ∃ m1, chip8_memory_set m (a : Int) val = .ok m1 ∧
      ∀ j, m1.memory j = if j = a then val else m.memory j := by
  have hs := chip8_memory_set_ok m val (show (0 : Int) ≤ (a : Int) by omega)
    (show (a : Int) < 4096 by omega)
  rw [Int.toNat_ofNat] at hs
  exact ⟨_, hs, fun _ => rfl⟩

/-! ## Claims on the `Fx--` family -/

/-- C13: with `I + 2 < 4096` and `I + x < 4096`, `chip8_exec` of `0xFx33` gives the same
state as writing the digits `V[x] / 100`, `(V[x] / 10) mod 10`, `V[x] mod 10` to
`Memory[I]`, `Memory[I+1]`, `Memory[I+2]` and then executing `0xFx55`: afterwards
`Memory[I+i] = V[i]` for every `i ≤ x`, and only the positions `I+i` with `x < i ≤ 2`
still hold their digit.  The digits are at most 9 and recompose `V[x]`. -/
theorem C13_bcd_then_register_dump (env : Collaborators) (c : chip8) (x : Nat)
    (hx : x < 16) (h2 : c.registers.I.val + 2 < 4096) (hxI : c.registers.I.val + x < 4096) :
    (100 * ((c.registers.V x).val / 100) + 10 * ((c.registers.V x).val / 10 % 10)
        + (c.registers.V x).val % 10 = (c.registers.V x).val ∧
      (c.registers.V x).val / 100 ≤ 9 ∧ (c.registers.V x).val / 10 % 10 ≤ 9 ∧
      (c.registers.V x).val % 10 ≤ 9) ∧
    ∃ m1 m2 m3 c1,
      chip8_memory_set c.memory (c.registers.I.val : Int)
        (toUChar ((c.registers.V x).val / 100)) = .ok m1 ∧
      chip8_memory_set m1 ((c.registers.I.val : Int) + 1)
        (toUChar ((c.registers.V x).val / 10 % 10)) = .ok m2 ∧
      chip8_memory_set m2 ((c.registers.I.val : Int) + 2)
        (toUChar ((c.registers.V x).val % 10)) = .ok m3 ∧
      chip8_exec env c (0xF000 + x * 256 + 0x33) = .ok c1 ∧
      chip8_exec env { c with memory := m3 } (0xF000 + x * 256 + 0x55) = .ok c1 ∧
      (∀ i, i ≤ x → c1.memory.memory (c.registers.I.val + i) = c.registers.V i) ∧
      (x < 1 → (c1.memory.memory (c.registers.I.val + 1)).val
        = (c.registers.V x).val / 10 % 10) ∧
      (x < 2 → (c1.memory.memory (c.registers.I.val + 2)).val
        = (c.registers.V x).val % 10) ∧
      (∀ j, (j < c.registers.I.val ∨ c.registers.I.val + 2 < j) →
        (j < c.registers.I.val ∨ c.registers.I.val + x < j) →
        c1.memory.memory j = c.memory.memory j) ∧
      c1.registers = c.registers := by
  have hvx := (c.registers.V x).isLt
  refine ⟨by omega, ?_⟩
  obtain ⟨m1, s1, g1⟩ := chip8_memory_set_at c.memory c.registers.I.val
    (toUChar ((c.registers.V x).val / 100)) (by omega)
  obtain ⟨m2, s2, g2⟩ := chip8_memory_set_at m1 (c.registers.I.val + 1)
    (toUChar ((c.registers.V x).val / 10 % 10)) (by omega)
  obtain ⟨m3, s3, g3⟩ := chip8_memory_set_at m2 (c.registers.I.val + 2)
    (toUChar ((c.registers.V x).val % 10)) (by omega)
  simp only [Nat.cast_add, Nat.cast_one, Nat.cast_ofNat] at s2 s3
  obtain ⟨c1, h1, hreg, _, _, _, hmem⟩ :=
    chip8_store_registers_loop_ok (x + 1) { c with memory := m3 } 0
      (by show c.registers.I.val + 0 + (x + 1) ≤ 4096; omega)
  replace hmem : ∀ j, c1.memory.memory j
      = if c.registers.I.val + 0 ≤ j ∧ j < c.registers.I.val + 0 + (x + 1)
        then c.registers.V (j - c.registers.I.val) else m3.memory j := hmem
  refine ⟨_, _, _, c1, s1, s2, s3, ?_, ?_, ?_, ?_, ?_, ?_, hreg⟩
  · rw [chip8_exec_Fx33 env c x hx, s1]
    simp only [Except.bind, s2, s3]
    exact h1
  · rw [chip8_exec_Fx55 env _ x hx]
    exact h1
  · intro i hi
    have hin : c.registers.I.val + 0 ≤ c.registers.I.val + i
        ∧ c.registers.I.val + i < c.registers.I.val + 0 + (x + 1) := by omega
    have hsub : c.registers.I.val + i - c.registers.I.val = i := by omega
    rw [hmem (c.registers.I.val + i), if_pos hin, hsub]
  · intro hx1
    have hout : ¬ (c.registers.I.val + 0 ≤ c.registers.I.val + 1
        ∧ c.registers.I.val + 1 < c.registers.I.val + 0 + (x + 1)) := by omega
    rw [hmem (c.registers.I.val + 1), if_neg hout, g3, g2]
    simp [toUChar]
    omega
  · intro hx2
    have hout : ¬ (c.registers.I.val + 0 ≤ c.registers.I.val + 2
        ∧ c.registers.I.val + 2 < c.registers.I.val + 0 + (x + 1)) := by omega
    rw [hmem (c.registers.I.val + 2), if_neg hout, g3]
    simp [toUChar]
    omega
  · intro j hj2 hjx
    have hout : ¬ (c.registers.I.val + 0 ≤ j ∧ j < c.registers.I.val + 0 + (x + 1)) := by
      omega
    have e0 : ¬ (j = c.registers.I.val) := by omega
    have e1 : ¬ (j = c.registers.I.val + 1) := by omega
    have e2 : ¬ (j = c.registers.I.val + 2) := by omega
    rw [hmem j, if_neg hout, g3, if_neg e2, g2, if_neg e1, g1, if_neg e0]

theorem C13_bcd_then_register_dump_witness :
    (0 < 16 ∧ ((chip8_zeroed.set_I 0x300).set_V 0 234).registers.I.val + 2 < 4096 ∧
      ((chip8_zeroed.set_I 0x300).set_V 0 234).registers.I.val + 0 < 4096) ∧
    (100 * ((((chip8_zeroed.set_I 0x300).set_V 0 234).registers.V 0).val / 100)
        + 10 * ((((chip8_zeroed.set_I 0x300).set_V 0 234).registers.V 0).val / 10 % 10)
        + (((chip8_zeroed.set_I 0x300).set_V 0 234).registers.V 0).val % 10
        = (((chip8_zeroed.set_I 0x300).set_V 0 234).registers.V 0).val ∧
      (((chip8_zeroed.set_I 0x300).set_V 0 234).registers.V 0).val / 100 ≤ 9 ∧
      (((chip8_zeroed.set_I 0x300).set_V 0 234).registers.V 0).val / 10 % 10 ≤ 9 ∧
      (((chip8_zeroed.set_I 0x300).set_V 0 234).registers.V 0).val % 10 ≤ 9) ∧
    ∃ m1 m2 m3 c1,
      chip8_memory_set ((chip8_zeroed.set_I 0x300).set_V 0 234).memory
        ((((chip8_zeroed.set_I 0x300).set_V 0 234).registers.I.val : Nat) : Int)
        (toUChar ((((chip8_zeroed.set_I 0x300).set_V 0 234).registers.V 0).val / 100))
        = .ok m1 ∧
      chip8_memory_set m1
        (((((chip8_zeroed.set_I 0x300).set_V 0 234).registers.I.val : Nat) : Int) + 1)
        (toUChar ((((chip8_zeroed.set_I 0x300).set_V 0 234).registers.V 0).val / 10 % 10))
        = .ok m2 ∧
      chip8_memory_set m2
        (((((chip8_zeroed.set_I 0x300).set_V 0 234).registers.I.val : Nat) : Int) + 2)
        (toUChar ((((chip8_zeroed.set_I 0x300).set_V 0 234).registers.V 0).val % 10))
        = .ok m3 ∧
      chip8_exec ⟨fun s => .ok s, fun s _ _ _ _ => .ok (false, s), fun _ _ => .ok false,
          fun _ _ => -1, [], 0⟩ ((chip8_zeroed.set_I 0x300).set_V 0 234)
          (0xF000 + 0 * 256 + 0x33) = .ok c1 ∧
      chip8_exec ⟨fun s => .ok s, fun s _ _ _ _ => .ok (false, s), fun _ _ => .ok false,
          fun _ _ => -1, [], 0⟩
          { (chip8_zeroed.set_I 0x300).set_V 0 234 with memory := m3 }
          (0xF000 + 0 * 256 + 0x55) = .ok c1 ∧
      (∀ i, i ≤ 0 →
        c1.memory.memory (((chip8_zeroed.set_I 0x300).set_V 0 234).registers.I.val + i)
          = ((chip8_zeroed.set_I 0x300).set_V 0 234).registers.V i) ∧
      (0 < 1 →
        (c1.memory.memory (((chip8_zeroed.set_I 0x300).set_V 0 234).registers.I.val + 1)).val
          = (((chip8_zeroed.set_I 0x300).set_V 0 234).registers.V 0).val / 10 % 10) ∧
      (0 < 2 →
        (c1.memory.memory (((chip8_zeroed.set_I 0x300).set_V 0 234).registers.I.val + 2)).val
          = (((chip8_zeroed.set_I 0x300).set_V 0 234).registers.V 0).val % 10) ∧
      (∀ j, (j < ((chip8_zeroed.set_I 0x300).set_V 0 234).registers.I.val
            ∨ ((chip8_zeroed.set_I 0x300).set_V 0 234).registers.I.val + 2 < j) →
        (j < ((chip8_zeroed.set_I 0x300).set_V 0 234).registers.I.val
            ∨ ((chip8_zeroed.set_I 0x300).set_V 0 234).registers.I.val + 0 < j) →
        c1.memory.memory j = ((chip8_zeroed.set_I 0x300).set_V 0 234).memory.memory j) ∧
      c1.registers = ((chip8_zeroed.set_I 0x300).set_V 0 234).registers :=
  ⟨by decide, C13_bcd_then_register_dump _ ((chip8_zeroed.set_I 0x300).set_V 0 234) 0
    (by decide) (by decide) (by decide)⟩

/-- C14: for `x` in `0..15` with `I + x < 4096`, after `chip8_exec` of `0xFx55` the byte
`Memory[I + i]` is `V[i]` for every `i` in `0..x`, every memory byte outside `I..I+x` is
unchanged, and `I`, the V registers, `PC` and the stack pointer are unchanged. -/
theorem C14_store_registers_frame (env : Collaborators) (c : chip8) (x : Nat)
    (hx : x < 16) (hI : c.registers.I.val + x < 4096) :
    ∃ c1, chip8_exec env c (0xF000 + x * 256 + 0x55) = .ok c1 ∧
      (∀ i, i ≤ x → c1.memory.memory (c.registers.I.val + i) = c.registers.V i) ∧
      (∀ j, (j < c.registers.I.val ∨ c.registers.I.val + x < j) →
        c1.memory.memory j = c.memory.memory j) ∧
      c1.registers.I = c.registers.I ∧ c1.registers.V = c.registers.V ∧
      c1.registers.PC = c.registers.PC ∧ c1.registers.SP = c.registers.SP := by
  obtain ⟨c1, h1, hreg, _, _, _, hmem⟩ :=
    chip8_store_registers_loop_ok (x + 1) c 0 (by omega)
  refine ⟨c1, by rw [chip8_exec_Fx55 env c x hx, h1], ?_, ?_, by rw [hreg], by rw [hreg],
    by rw [hreg], by rw [hreg]⟩
  · intro i hi
    have hin : c.registers.I.val + 0 ≤ c.registers.I.val + i
        ∧ c.registers.I.val + i < c.registers.I.val + 0 + (x + 1) := by omega
    have hsub : c.registers.I.val + i - c.registers.I.val = i := by omega
    rw [hmem (c.registers.I.val + i), if_pos hin, hsub]
  · intro j hj
    have hout : ¬ (c.registers.I.val + 0 ≤ j ∧ j < c.registers.I.val + 0 + (x + 1)) := by
      omega
    rw [hmem j, if_neg hout]

theorem C14_store_registers_frame_witness :
    (2 < 16 ∧ ((chip8_zeroed.set_I 0xFFD).set_V 1 7).registers.I.val + 2 < 4096) ∧
    ∃ c1,
      chip8_exec ⟨fun s => .ok s, fun s _ _ _ _ => .ok (false, s), fun _ _ => .ok false,
          fun _ _ => -1, [], 0⟩ ((chip8_zeroed.set_I 0xFFD).set_V 1 7)
          (0xF000 + 2 * 256 + 0x55) = .ok c1 ∧
      (∀ i, i ≤ 2 →
        c1.memory.memory (((chip8_zeroed.set_I 0xFFD).set_V 1 7).registers.I.val + i)
          = ((chip8_zeroed.set_I 0xFFD).set_V 1 7).registers.V i) ∧
      (∀ j, (j < ((chip8_zeroed.set_I 0xFFD).set_V 1 7).registers.I.val
            ∨ ((chip8_zeroed.set_I 0xFFD).set_V 1 7).registers.I.val + 2 < j) →
        c1.memory.memory j = ((chip8_zeroed.set_I 0xFFD).set_V 1 7).memory.memory j) ∧
      c1.registers.I = ((chip8_zeroed.set_I 0xFFD).set_V 1 7).registers.I ∧
      c1.registers.V = ((chip8_zeroed.set_I 0xFFD).set_V 1 7).registers.V ∧
      c1.registers.PC = ((chip8_zeroed.set_I 0xFFD).set_V 1 7).registers.PC ∧
      c1.registers.SP = ((chip8_zeroed.set_I 0xFFD).set_V 1 7).registers.SP :=
  ⟨by decide, C14_store_registers_frame _ ((chip8_zeroed.set_I 0xFFD).set_V 1 7) 2
    (by decide) (by decide)⟩

/-- C15: `chip8_exec` of `0xAnnn` sets `I = nnn`; `chip8_exec` of `0xFx29` then sets
`I = 5 * V[x]`, whatever `I` was before, without wraparound and at most 1275; on a
machine whose bytes `0x000-0x04F` hold the glyph table and with `V[x] = d ≤ 15`, the five
bytes `Memory[I..I+4]` are the rows of the glyph of the digit `d`. -/
theorem C15_load_index_then_glyph_address (env : Collaborators) (c : chip8) (nnn x : Nat)
    (hn : nnn < 4096) (hx : x < 16) :
    ∃ c1 c2, chip8_exec env c (0xA000 + nnn) = .ok c1 ∧ c1.registers.I.val = nnn ∧
      chip8_exec env c1 (0xF000 + x * 256 + 0x29) = .ok c2 ∧
      c2.registers.I.val = 5 * (c.registers.V x).val ∧ c2.registers.I.val ≤ 1275 ∧
      (∀ c0 : chip8, ∃ c3, chip8_exec env c0 (0xF000 + x * 256 + 0x29) = .ok c3 ∧
        c3.registers.I.val = 5 * (c0.registers.V x).val) ∧
      ((∀ j, j < 0x50 →
          (c.memory.memory j).val = chip8_default_character_set.getD j 0) →
        ∀ d, d ≤ 15 → (c.registers.V x).val = d → ∀ k, k < 5 →
          (c2.memory.memory (c2.registers.I.val + k)).val
            = chip8_default_character_set.getD (5 * d + k) 0) := by
  have hI : ∀ c0 : chip8,
      (toUShort ((c0.registers.V x).val * CHIP8_DEFAULT_SPRITE_HEIGHT)).val
        = 5 * (c0.registers.V x).val := by
    intro c0
    have := (c0.registers.V x).isLt
    simp only [toUShort, CHIP8_DEFAULT_SPRITE_HEIGHT]
    omega
  have hvx := (c.registers.V x).isLt
  refine ⟨_, _, chip8_exec_Annn env c nnn hn, ?_, chip8_exec_Fx29 env _ x hx, ?_, ?_, ?_, ?_⟩
  · show nnn % 65536 = nnn
    omega
  · exact hI c
  · show (toUShort ((c.registers.V x).val * CHIP8_DEFAULT_SPRITE_HEIGHT)).val ≤ 1275
    rw [hI c]; omega
  · intro c0
    exact ⟨_, chip8_exec_Fx29 env c0 x hx, hI c0⟩
  · intro htable d hd hv k hk
    show (c.memory.memory ((toUShort ((c.registers.V x).val
      * CHIP8_DEFAULT_SPRITE_HEIGHT)).val + k)).val = _
    rw [hI c, hv]
    exact htable (5 * d + k) (by omega)

theorem C15_load_index_then_glyph_address_witness :
    (0x2F0 < 4096 ∧ 3 < 16) ∧
    ∃ c1 c2,
      chip8_exec ⟨fun s => .ok s, fun s _ _ _ _ => .ok (false, s), fun _ _ => .ok false,
          fun _ _ => -1, [], 0⟩ ((chip8_init chip8_zeroed).set_V 3 0xA) (0xA000 + 0x2F0)
        = .ok c1 ∧
      c1.registers.I.val = 0x2F0 ∧
      chip8_exec ⟨fun s => .ok s, fun s _ _ _ _ => .ok (false, s), fun _ _ => .ok false,
          fun _ _ => -1, [], 0⟩ c1 (0xF000 + 3 * 256 + 0x29) = .ok c2 ∧
      c2.registers.I.val = 5 * (((chip8_init chip8_zeroed).set_V 3 0xA).registers.V 3).val ∧
      c2.registers.I.val ≤ 1275 ∧
      (∀ c0 : chip8, ∃ c3,
        chip8_exec ⟨fun s => .ok s, fun s _ _ _ _ => .ok (false, s), fun _ _ => .ok false,
          fun _ _ => -1, [], 0⟩ c0 (0xF000 + 3 * 256 + 0x29) = .ok c3 ∧
        c3.registers.I.val = 5 * (c0.registers.V 3).val) ∧
      ((∀ j, j < 0x50 →
          (((chip8_init chip8_zeroed).set_V 3 0xA).memory.memory j).val
            = chip8_default_character_set.getD j 0) →
        ∀ d, d ≤ 15 → (((chip8_init chip8_zeroed).set_V 3 0xA).registers.V 3).val = d →
          ∀ k, k < 5 →
            (c2.memory.memory (c2.registers.I.val + k)).val
              = chip8_default_character_set.getD (5 * d + k) 0) :=
  ⟨by decide, C15_load_index_then_glyph_address _ ((chip8_init chip8_zeroed).set_V 3 0xA)
    0x2F0 3 (by decide) (by decide)⟩

/-! ## The state after `chip8_init` -/

/-- C16: after `chip8_init` on any machine the memory bytes `0x000-0x04F` are the 80
bytes of the glyph table, in order, bytes `0x000-0x004` being `0xF0, 0x90, 0x90, 0x90,
0xF0`; every memory byte from `0x050` to `0xFFF` is 0; all V registers, `I`, both
timers, `PC`, the stack pointer and all stack slots are 0. -/
theorem C16_init_state (c : chip8) :
    (List.range 0x50).map (fun j => ((chip8_init c).memory.memory j).val)
      = chip8_default_character_set ∧
    chip8_default_character_set.length = 16 * CHIP8_DEFAULT_SPRITE_HEIGHT ∧
    (List.range 5).map (fun j => ((chip8_init c).memory.memory j).val)
      = [0xF0, 0x90, 0x90, 0x90, 0xF0] ∧
    (∀ j, 0x050 ≤ j → j ≤ 0xFFF → (chip8_init c).memory.memory j = 0) ∧
    (∀ j, (chip8_init c).registers.V j = 0) ∧
    (chip8_init c).registers.I = 0 ∧
    (chip8_init c).registers.delay_timer = 0 ∧
    (chip8_init c).registers.sound_timer = 0 ∧
    (chip8_init c).registers.PC = 0 ∧
    (chip8_init c).registers.SP = 0 ∧
    (∀ j, (chip8_init c).stack.stack j = 0) := by
  have e : chip8_init c = chip8_init chip8_zeroed := rfl
  rw [e]
  refine ⟨by decide, by decide, by decide, ?_, fun _ => rfl, rfl, rfl, rfl, rfl, rfl,
    fun _ => rfl⟩
  intro j h1 _
  have hlen : ¬ (j < chip8_default_character_set.length) := by
    have : chip8_default_character_set.length = 80 := by decide
    omega
  simp only [chip8_init, if_neg hlen]
  rfl

/-! ## Instruction words with no matching case -/

theorem chip8_exec_0nnn (env : Collaborators) (c : chip8) (nnn : Nat) (hn : nnn < 4096)
    (h1 : nnn ≠ 0x00E0) (h2 : nnn ≠ 0x00EE) : chip8_exec env c nnn = .ok c := by
  have hf : nnn &&& 0xf000 = 0 := by rw [and_0xf000]; omega
  unfold chip8_exec
  split
  · omega
  · omega
  · simp only [chip8_exec_extended, hf]
    rfl

theorem chip8_exec_extended_eight_no_case (c : chip8) (x y n : Nat) (hx : x < 16)
    (hy : y < 16)
    (hn : n = 0x8 ∨ n = 0x9 ∨ n = 0xA ∨ n = 0xB ∨ n = 0xC ∨ n = 0xD ∨ n = 0xF) :
    chip8_exec_extended_eight c (0x8000 + x * 256 + y * 16 + n) = c := by
  obtain ⟨h1, h2, h3⟩ := chip8_exec_extended_eight_fields x y n hx hy (by omega)
  rcases hn with h | h | h | h | h | h | h <;> subst h <;>
    simp only [chip8_exec_extended_eight, h3]

theorem chip8_exec_Exkk_no_case (env : Collaborators) (c : chip8) (x kk : Nat) (hx : x < 16)
    (hkk : kk < 256) (h1 : kk ≠ 0x9E) (h2 : kk ≠ 0xA1) :
    chip8_exec env c (0xE000 + x * 256 + kk) = .ok c := by
  have hf : (0xE000 + x * 256 + kk) &&& 0xf000 = 0xE000 := by rw [and_0xf000]; omega
  have hk : (0xE000 + x * 256 + kk) &&& 0x00ff = kk := by rw [and_0x00ff]; omega
  unfold chip8_exec
  split
  · omega
  · omega
  · simp only [chip8_exec_extended, hf, hk]
    rfl

theorem chip8_exec_Fxkk_no_case (env : Collaborators) (c : chip8) (x kk : Nat) (hx : x < 16)
    (hkk : kk < 256)
    (hno : kk ≠ 0x07 ∧ kk ≠ 0x0A ∧ kk ≠ 0x15 ∧ kk ≠ 0x18 ∧ kk ≠ 0x1E ∧ kk ≠ 0x29 ∧
      kk ≠ 0x33 ∧ kk ≠ 0x55 ∧ kk ≠ 0x65) :
    chip8_exec env c (0xF000 + x * 256 + kk) = .ok c := by
  obtain ⟨h1, h2, h3⟩ := chip8_exec_Fxkk env c x kk hx hkk
  rw [h1]
  simp only [chip8_exec_extended_F, h2, h3]
  split <;> first | omega | rfl

/-- C17: `chip8_exec` returns the machine state unchanged, and does not fail, for every
instruction word with no matching case: `0x0nnn` other than `0x00E0` and `0x00EE`,
`0x8xyN` with `N` in `8, 9, A, B, C, D, F`, `0xExkk` with `kk` not `0x9E` or `0xA1`, and
`0xFxkk` with `kk` none of `0x07, 0x0A, 0x15, 0x18, 0x1E, 0x29, 0x33, 0x55, 0x65`. -/
theorem C17_unmatched_opcodes_are_noops (env : Collaborators) (c : chip8) (opcode : Nat)
    (h : (∃ nnn, opcode = nnn ∧ nnn < 4096 ∧ nnn ≠ 0x00E0 ∧ nnn ≠ 0x00EE) ∨
      (∃ x y n, opcode = 0x8000 + x * 256 + y * 16 + n ∧ x < 16 ∧ y < 16 ∧
        (n = 0x8 ∨ n = 0x9 ∨ n = 0xA ∨ n = 0xB ∨ n = 0xC ∨ n = 0xD ∨ n = 0xF)) ∨
      (∃ x kk, opcode = 0xE000 + x * 256 + kk ∧ x < 16 ∧ kk < 256 ∧
        kk ≠ 0x9E ∧ kk ≠ 0xA1) ∨
      (∃ x kk, opcode = 0xF000 + x * 256 + kk ∧ x < 16 ∧ kk < 256 ∧
        kk ≠ 0x07 ∧ kk ≠ 0x0A ∧ kk ≠ 0x15 ∧ kk ≠ 0x18 ∧ kk ≠ 0x1E ∧ kk ≠ 0x29 ∧
        kk ≠ 0x33 ∧ kk ≠ 0x55 ∧ kk ≠ 0x65)) :
    chip8_exec env c opcode = .ok c := by
  rcases h with ⟨nnn, he, hn, h1, h2⟩ | ⟨x, y, n, rfl, hx, hy, hn⟩ |
    ⟨x, kk, rfl, hx, hkk, h1, h2⟩ | ⟨x, kk, rfl, hx, hkk, hno⟩
  · rw [he]
    exact chip8_exec_0nnn env c nnn hn h1 h2
  · rw [chip8_exec_8xyn env c x y n hx hy (by omega),
      chip8_exec_extended_eight_no_case c x y n hx hy hn]
  · exact chip8_exec_Exkk_no_case env c x kk hx hkk h1 h2
  · exact chip8_exec_Fxkk_no_case env c x kk hx hkk hno

theorem C17_unmatched_opcodes_are_noops_witness :
    ((∃ nnn, 0x8129 = nnn ∧ nnn < 4096 ∧ nnn ≠ 0x00E0 ∧ nnn ≠ 0x00EE) ∨
      (∃ x y n, 0x8129 = 0x8000 + x * 256 + y * 16 + n ∧ x < 16 ∧ y < 16 ∧
        (n = 0x8 ∨ n = 0x9 ∨ n = 0xA ∨ n = 0xB ∨ n = 0xC ∨ n = 0xD ∨ n = 0xF)) ∨
      (∃ x kk, 0x8129 = 0xE000 + x * 256 + kk ∧ x < 16 ∧ kk < 256 ∧
        kk ≠ 0x9E ∧ kk ≠ 0xA1) ∨
      (∃ x kk, 0x8129 = 0xF000 + x * 256 + kk ∧ x < 16 ∧ kk < 256 ∧
        kk ≠ 0x07 ∧ kk ≠ 0x0A ∧ kk ≠ 0x15 ∧ kk ≠ 0x18 ∧ kk ≠ 0x1E ∧ kk ≠ 0x29 ∧
        kk ≠ 0x33 ∧ kk ≠ 0x55 ∧ kk ≠ 0x65)) ∧
    chip8_exec ⟨fun s => .ok s, fun s _ _ _ _ => .ok (false, s), fun _ _ => .ok false,
      fun _ _ => -1, [], 0⟩ (chip8_init chip8_zeroed) 0x8129 = .ok (chip8_init chip8_zeroed) :=
  ⟨Or.inr (Or.inl ⟨1, 2, 9, by decide⟩),
    C17_unmatched_opcodes_are_noops _ (chip8_init chip8_zeroed) 0x8129
      (Or.inr (Or.inl ⟨1, 2, 9, by decide⟩))⟩

/-! ## The program counter -/

theorem chip8_exec_extended_eight_PC (c : chip8) (opcode : Nat) :
    (chip8_exec_extended_eight c opcode).registers.PC = c.registers.PC := by
  unfold chip8_exec_extended_eight
  simp only []
  split <;> (try split_ifs) <;> rfl

theorem chip8_store_registers_loop_registers (n : Nat) : ∀ (c c1 : chip8) (i : Nat),
    chip8_store_registers_loop c n i = .ok c1 → c1.registers = c.registers := by
  induction n with
  | zero =>
    intro c c1 i h
    simp only [chip8_store_registers_loop, pure, Except.pure, Except.ok.injEq] at h
    rw [← h]
  | succ n ih =>
    intro c c1 i h
    rw [chip8_store_registers_loop] at h
    cases hs : chip8_memory_set c.memory ((c.registers.I.val : Int) + (i : Int))
        (c.registers.V i) with
    | error e =>
      rw [hs] at h
      exact absurd h (by simp [bind, Except.bind])
    | ok m =>
      rw [hs] at h
      exact ih { c with memory := m } c1 (i + 1) h

theorem chip8_read_registers_loop_PC (n : Nat) : ∀ (c c1 : chip8) (i : Nat),
    chip8_read_registers_loop c n i = .ok c1 → c1.registers.PC = c.registers.PC := by
  induction n with
  | zero =>
    intro c c1 i h
    simp only [chip8_read_registers_loop, pure, Except.pure, Except.ok.injEq] at h
    rw [← h]
  | succ n ih =>
    intro c c1 i h
    rw [chip8_read_registers_loop] at h
    cases hs : chip8_memory_get c.memory ((c.registers.I.val : Int) + (i : Int)) with
    | error e =>
      rw [hs] at h
      exact absurd h (by simp [bind, Except.bind])
    | ok v =>
      rw [hs] at h
      exact ih (c.set_V i v) c1 (i + 1) h

theorem except_bind_ok_inv {α β : Type} (e : Except Fault α) (f : α → Except Fault β)
    (b : β) (h : (e >>= f) = .ok b) : ∃ a, e = .ok a ∧ f a = .ok b := by
  cases e with
  | error err => exact absurd h (by simp [bind, Except.bind])
  | ok a => exact ⟨a, rfl, h⟩

theorem chip8_exec_extended_F_PC (env : Collaborators) (c c1 : chip8) (opcode : Nat)
    (h : chip8_exec_extended_F env c opcode = .ok c1) :
    c1.registers.PC = c.registers.PC := by
  unfold chip8_exec_extended_F at h
  simp only [] at h
  split at h
  · simp only [pure, Except.pure, Except.ok.injEq] at h; rw [← h]; rfl
  · simp only [pure, Except.pure, Except.ok.injEq] at h; rw [← h]; rfl
  · simp only [pure, Except.pure, Except.ok.injEq] at h; rw [← h]
  · simp only [pure, Except.pure, Except.ok.injEq] at h; rw [← h]
  · simp only [pure, Except.pure, Except.ok.injEq] at h; rw [← h]; rfl
  · simp only [pure, Except.pure, Except.ok.injEq] at h; rw [← h]; rfl
  · obtain ⟨m1, _, h⟩ := except_bind_ok_inv _ _ _ h
    obtain ⟨m2, _, h⟩ := except_bind_ok_inv _ _ _ h
    obtain ⟨m3, _, h⟩ := except_bind_ok_inv _ _ _ h
    have := chip8_store_registers_loop_registers _ { c with memory := m3 } c1 0 h
    rw [this]
  · have := chip8_store_registers_loop_registers _ c c1 0 h
    rw [this]
  · exact chip8_read_registers_loop_PC _ c c1 0 h
  · simp only [pure, Except.pure, Except.ok.injEq] at h; rw [← h]

/-- C18: for every instruction word whose top four bits are 6, 7, 8, A or F, the `PC`
after a `chip8_exec` that returns equals the `PC` before it: the engine does not add the
per-instruction 2 itself. -/
theorem C18_pc_unchanged_by_data_instructions (env : Collaborators) (c c1 : chip8)
    (opcode : Nat) (hop : opcode < 65536)
    (hfam : opcode / 4096 = 0x6 ∨ opcode / 4096 = 0x7 ∨ opcode / 4096 = 0x8 ∨
      opcode / 4096 = 0xA ∨ opcode / 4096 = 0xF)
    (hok : chip8_exec env c opcode = .ok c1) :
    c1.registers.PC = c.registers.PC := by
  have hf := and_0xf000 opcode
  unfold chip8_exec at hok
  split at hok
  · omega
  · omega
  · rcases hfam with h | h | h | h | h
    · have hm : opcode &&& 0xf000 = 0x6000 := by omega
      simp only [chip8_exec_extended, hm, pure, Except.pure, Except.ok.injEq] at hok
      rw [← hok]; rfl
    · have hm : opcode &&& 0xf000 = 0x7000 := by omega
      simp only [chip8_exec_extended, hm, pure, Except.pure, Except.ok.injEq] at hok
      rw [← hok]; rfl
    · have hm : opcode &&& 0xf000 = 0x8000 := by omega
      simp only [chip8_exec_extended, hm, pure, Except.pure, Except.ok.injEq] at hok
      rw [← hok]
      exact chip8_exec_extended_eight_PC c opcode
    · have hm : opcode &&& 0xf000 = 0xA000 := by omega
      simp only [chip8_exec_extended, hm, pure, Except.pure, Except.ok.injEq] at hok
      rw [← hok]; rfl
    · have hm : opcode &&& 0xf000 = 0xF000 := by omega
      simp only [chip8_exec_extended, hm] at hok
      exact chip8_exec_extended_F_PC env c c1 opcode hok

theorem C18_pc_unchanged_by_data_instructions_witness :
    (0xF155 < 65536 ∧
      (0xF155 / 4096 = 0x6 ∨ 0xF155 / 4096 = 0x7 ∨ 0xF155 / 4096 = 0x8 ∨
        0xF155 / 4096 = 0xA ∨ 0xF155 / 4096 = 0xF) ∧
      chip8_exec ⟨fun s => .ok s, fun s _ _ _ _ => .ok (false, s), fun _ _ => .ok false,
          fun _ _ => -1, [], 0⟩ ((chip8_zeroed.set_PC 0x202).set_I 0x300) 0xF155
        = .ok { (chip8_zeroed.set_PC 0x202).set_I 0x300 with
            memory := { memory := fun j =>
              if j = 0x301 then (chip8_zeroed.registers.V 1)
              else if j = 0x300 then (chip8_zeroed.registers.V 0)
              else chip8_zeroed.memory.memory j } }) ∧
    ({ (chip8_zeroed.set_PC 0x202).set_I 0x300 with
        memory := { memory := fun j =>
          if j = 0x301 then (chip8_zeroed.registers.V 1)
          else if j = 0x300 then (chip8_zeroed.registers.V 0)
          else chip8_zeroed.memory.memory j } } : chip8).registers.PC
      = ((chip8_zeroed.set_PC 0x202).set_I 0x300).registers.PC :=
  ⟨⟨by decide, by decide, rfl⟩,
    C18_pc_unchanged_by_data_instructions
      ⟨fun s => .ok s, fun s _ _ _ _ => .ok (false, s), fun _ _ => .ok false,
        fun _ _ => -1, [], 0⟩ ((chip8_zeroed.set_PC 0x202).set_I 0x300)
      { (chip8_zeroed.set_PC 0x202).set_I 0x300 with
        memory := { memory := fun j =>
          if j = 0x301 then (chip8_zeroed.registers.V 1)
          else if j = 0x300 then (chip8_zeroed.registers.V 0)
          else chip8_zeroed.memory.memory j } }
      0xF155 (by decide) (by decide) rfl⟩

/-! ## The skip instructions -/

theorem chip8_exec_3xkk (env : Collaborators) (c : chip8) (x kk : Nat) (hx : x < 16)
    (hkk : kk < 256) :
    chip8_exec env c (0x3000 + x * 256 + kk)
      = .ok (if (c.registers.V x).val = kk
          then c.set_PC (toUShort (c.registers.PC.val + 2)) else c) := by
  have h1 : (0x3000 + x * 256 + kk) &&& 0xf000 = 0x3000 := by rw [and_0xf000]; omega
  have h2 : ((0x3000 + x * 256 + kk) >>> 8) &&& 0x000f = x := by
    rw [shr8_and_0x000f]; omega
  have h3 : (0x3000 + x * 256 + kk) &&& 0x00ff = kk := by rw [and_0x00ff]; omega
  unfold chip8_exec
  split
  · omega
  · omega
  · simp only [chip8_exec_extended, h1, h2, h3]
    split <;> rfl

theorem chip8_exec_4xkk (env : Collaborators) (c : chip8) (x kk : Nat) (hx : x < 16)
    (hkk : kk < 256) :
    chip8_exec env c (0x4000 + x * 256 + kk)
      = .ok (if (c.registers.V x).val ≠ kk
          then c.set_PC (toUShort (c.registers.PC.val + 2)) else c) := by
  have h1 : (0x4000 + x * 256 + kk) &&& 0xf000 = 0x4000 := by rw [and_0xf000]; omega
  have h2 : ((0x4000 + x * 256 + kk) >>> 8) &&& 0x000f = x := by
    rw [shr8_and_0x000f]; omega
  have h3 : (0x4000 + x * 256 + kk) &&& 0x00ff = kk := by rw [and_0x00ff]; omega
  unfold chip8_exec
  split
  · omega
  · omega
  · simp only [chip8_exec_extended, h1, h2, h3]
    split <;> rfl

theorem chip8_exec_5xy0 (env : Collaborators) (c : chip8) (x y : Nat) (hx : x < 16)
    (hy : y < 16) :
    chip8_exec env c (0x5000 + x * 256 + y * 16)
      = .ok (if c.registers.V x = c.registers.V y
          then c.set_PC (toUShort (c.registers.PC.val + 2)) else c) := by
  have h1 : (0x5000 + x * 256 + y * 16) &&& 0xf000 = 0x5000 := by rw [and_0xf000]; omega
  have h2 : ((0x5000 + x * 256 + y * 16) >>> 8) &&& 0x000f = x := by
    rw [shr8_and_0x000f]; omega
  have h3 : ((0x5000 + x * 256 + y * 16) >>> 4) &&& 0x000f = y := by
    rw [shr4_and_0x000f]; omega
  unfold chip8_exec
  split
  · omega
  · omega
  · simp only [chip8_exec_extended, h1, h2, h3]
    split <;> rfl

theorem chip8_exec_9xy0 (env : Collaborators) (c : chip8) (x y : Nat) (hx : x < 16)
    (hy : y < 16) :
    chip8_exec env c (0x9000 + x * 256 + y * 16)
      = .ok (if c.registers.V x ≠ c.registers.V y
          then c.set_PC (toUShort (c.registers.PC.val + 2)) else c) := by
  have h1 : (0x9000 + x * 256 + y * 16) &&& 0xf000 = 0x9000 := by rw [and_0xf000]; omega
  have h2 : ((0x9000 + x * 256 + y * 16) >>> 8) &&& 0x000f = x := by
    rw [shr8_and_0x000f]; omega
  have h3 : ((0x9000 + x * 256 + y * 16) >>> 4) &&& 0x000f = y := by
    rw [shr4_and_0x000f]; omega
  unfold chip8_exec
  split
  · omega
  · omega
  · simp only [chip8_exec_extended, h1, h2, h3]
    split <;> rfl

/-- The state `if p then c.set_PC (PC + 2) else c`: its `PC` is `(PC + 2) mod 65536`
when `p` holds and the old `PC` otherwise, it differs from the old `PC` exactly when `p`
holds, and putting the old `PC` back gives the old state. -/
theorem skip_state (c : chip8) (p : Prop) [Decidable p] :
    ((if p then c.set_PC (toUShort (c.registers.PC.val + 2)) else c).registers.PC.val
      = if p then (c.registers.PC.val + 2) % 65536 else c.registers.PC.val) ∧
    ((if p then c.set_PC (toUShort (c.registers.PC.val + 2)) else c).registers.PC
      ≠ c.registers.PC ↔ p) ∧
    (if p then c.set_PC (toUShort (c.registers.PC.val + 2)) else c).set_PC c.registers.PC
      = c := by
  have hpc := c.registers.PC.isLt
  by_cases hp : p
  · rw [if_pos hp, if_pos hp]
    refine ⟨rfl, ⟨fun _ => hp, fun _ h => ?_⟩, rfl⟩
    have := congrArg Fin.val h
    simp only [chip8.set_PC, toUShort] at this
    omega
  · rw [if_neg hp, if_neg hp]
    exact ⟨rfl, ⟨fun h => absurd rfl h, fun h => absurd h hp⟩, rfl⟩

/-- C19: `chip8_exec` of `0x3xkk` sets `PC` to `(PC + 2) mod 65536` if `V[x] = kk` and
leaves it otherwise; `0x4xkk` does so if `V[x] ≠ kk`, `0x5xy0` if `V[x] = V[y]` and
`0x9xy0` if `V[x] ≠ V[y]`; from the same state exactly one of `0x3xkk` and `0x4xkk`
changes `PC`, and exactly one of `0x5xy0` and `0x9xy0`; nothing other than `PC`
changes: putting the old `PC` back gives the old state. -/
theorem C19_skip_instructions (env : Collaborators) (c : chip8) (x y kk : Nat)
    (hx : x < 16) (hy : y < 16) (hkk : kk < 256) :
    ∃ c3 c4 c5 c9,
      chip8_exec env c (0x3000 + x * 256 + kk) = .ok c3 ∧
      chip8_exec env c (0x4000 + x * 256 + kk) = .ok c4 ∧
      chip8_exec env c (0x5000 + x * 256 + y * 16) = .ok c5 ∧
      chip8_exec env c (0x9000 + x * 256 + y * 16) = .ok c9 ∧
      (c3.registers.PC.val = if (c.registers.V x).val = kk
        then (c.registers.PC.val + 2) % 65536 else c.registers.PC.val) ∧
      (c4.registers.PC.val = if (c.registers.V x).val ≠ kk
        then (c.registers.PC.val + 2) % 65536 else c.registers.PC.val) ∧
      (c5.registers.PC.val = if c.registers.V x = c.registers.V y
        then (c.registers.PC.val + 2) % 65536 else c.registers.PC.val) ∧
      (c9.registers.PC.val = if c.registers.V x ≠ c.registers.V y
        then (c.registers.PC.val + 2) % 65536 else c.registers.PC.val) ∧
      ((c3.registers.PC ≠ c.registers.PC ∧ c4.registers.PC = c.registers.PC) ∨
        (c3.registers.PC = c.registers.PC ∧ c4.registers.PC ≠ c.registers.PC)) ∧
      ((c5.registers.PC ≠ c.registers.PC ∧ c9.registers.PC = c.registers.PC) ∨
        (c5.registers.PC = c.registers.PC ∧ c9.registers.PC ≠ c.registers.PC)) ∧
      c3.set_PC c.registers.PC = c ∧ c4.set_PC c.registers.PC = c ∧
      c5.set_PC c.registers.PC = c ∧ c9.set_PC c.registers.PC = c := by
  obtain ⟨a3, b3, d3⟩ := skip_state c ((c.registers.V x).val = kk)
  obtain ⟨a4, b4, d4⟩ := skip_state c ((c.registers.V x).val ≠ kk)
  obtain ⟨a5, b5, d5⟩ := skip_state c (c.registers.V x = c.registers.V y)
  obtain ⟨a9, b9, d9⟩ := skip_state c (c.registers.V x ≠ c.registers.V y)
  refine ⟨_, _, _, _, chip8_exec_3xkk env c x kk hx hkk, chip8_exec_4xkk env c x kk hx hkk,
    chip8_exec_5xy0 env c x y hx hy, chip8_exec_9xy0 env c x y hx hy, a3, a4, a5, a9,
    ?_, ?_, d3, d4, d5, d9⟩
  · by_cases hp : (c.registers.V x).val = kk
    · exact Or.inl ⟨b3.mpr hp, not_not.mp (fun h => (b4.mp h) hp)⟩
    · exact Or.inr ⟨not_not.mp (fun h => hp (b3.mp h)), b4.mpr hp⟩
  · by_cases hp : c.registers.V x = c.registers.V y
    · exact Or.inl ⟨b5.mpr hp, not_not.mp (fun h => (b9.mp h) hp)⟩
    · exact Or.inr ⟨not_not.mp (fun h => hp (b5.mp h)), b9.mpr hp⟩

theorem C19_skip_instructions_witness :
    (2 < 16 ∧ 3 < 16 ∧ 0x2A < 256) ∧
    ∃ c3 c4 c5 c9,
      chip8_exec ⟨fun s => .ok s, fun s _ _ _ _ => .ok (false, s), fun _ _ => .ok false,
          fun _ _ => -1, [], 0⟩ ((chip8_zeroed.set_PC 0xFFFE).set_V 2 0x2A)
          (0x3000 + 2 * 256 + 0x2A) = .ok c3 ∧
      chip8_exec ⟨fun s => .ok s, fun s _ _ _ _ => .ok (false, s), fun _ _ => .ok false,
          fun _ _ => -1, [], 0⟩ ((chip8_zeroed.set_PC 0xFFFE).set_V 2 0x2A)
          (0x4000 + 2 * 256 + 0x2A) = .ok c4 ∧
      chip8_exec ⟨fun s => .ok s, fun s _ _ _ _ => .ok (false, s), fun _ _ => .ok false,
          fun _ _ => -1, [], 0⟩ ((chip8_zeroed.set_PC 0xFFFE).set_V 2 0x2A)
          (0x5000 + 2 * 256 + 3 * 16) = .ok c5 ∧
      chip8_exec ⟨fun s => .ok s, fun s _ _ _ _ => .ok (false, s), fun _ _ => .ok false,
          fun _ _ => -1, [], 0⟩ ((chip8_zeroed.set_PC 0xFFFE).set_V 2 0x2A)
          (0x9000 + 2 * 256 + 3 * 16) = .ok c9 ∧
      (c3.registers.PC.val
        = if (((chip8_zeroed.set_PC 0xFFFE).set_V 2 0x2A).registers.V 2).val = 0x2A
          then (((chip8_zeroed.set_PC 0xFFFE).set_V 2 0x2A).registers.PC.val + 2) % 65536
          else ((chip8_zeroed.set_PC 0xFFFE).set_V 2 0x2A).registers.PC.val) ∧
      (c4.registers.PC.val
        = if (((chip8_zeroed.set_PC 0xFFFE).set_V 2 0x2A).registers.V 2).val ≠ 0x2A
          then (((chip8_zeroed.set_PC 0xFFFE).set_V 2 0x2A).registers.PC.val + 2) % 65536
          else ((chip8_zeroed.set_PC 0xFFFE).set_V 2 0x2A).registers.PC.val) ∧
      (c5.registers.PC.val
        = if ((chip8_zeroed.set_PC 0xFFFE).set_V 2 0x2A).registers.V 2
            = ((chip8_zeroed.set_PC 0xFFFE).set_V 2 0x2A).registers.V 3
          then (((chip8_zeroed.set_PC 0xFFFE).set_V 2 0x2A).registers.PC.val + 2) % 65536
          else ((chip8_zeroed.set_PC 0xFFFE).set_V 2 0x2A).registers.PC.val) ∧
      (c9.registers.PC.val
        = if ((chip8_zeroed.set_PC 0xFFFE).set_V 2 0x2A).registers.V 2
            ≠ ((chip8_zeroed.set_PC 0xFFFE).set_V 2 0x2A).registers.V 3
          then (((chip8_zeroed.set_PC 0xFFFE).set_V 2 0x2A).registers.PC.val + 2) % 65536
          else ((chip8_zeroed.set_PC 0xFFFE).set_V 2 0x2A).registers.PC.val) ∧
      ((c3.registers.PC ≠ ((chip8_zeroed.set_PC 0xFFFE).set_V 2 0x2A).registers.PC ∧
          c4.registers.PC = ((chip8_zeroed.set_PC 0xFFFE).set_V 2 0x2A).registers.PC) ∨
        (c3.registers.PC = ((chip8_zeroed.set_PC 0xFFFE).set_V 2 0x2A).registers.PC ∧
          c4.registers.PC ≠ ((chip8_zeroed.set_PC 0xFFFE).set_V 2 0x2A).registers.PC)) ∧
      ((c5.registers.PC ≠ ((chip8_zeroed.set_PC 0xFFFE).set_V 2 0x2A).registers.PC ∧
          c9.registers.PC = ((chip8_zeroed.set_PC 0xFFFE).set_V 2 0x2A).registers.PC) ∨
        (c5.registers.PC = ((chip8_zeroed.set_PC 0xFFFE).set_V 2 0x2A).registers.PC ∧
          c9.registers.PC ≠ ((chip8_zeroed.set_PC 0xFFFE).set_V 2 0x2A).registers.PC)) ∧
      c3.set_PC ((chip8_zeroed.set_PC 0xFFFE).set_V 2 0x2A).registers.PC
        = (chip8_zeroed.set_PC 0xFFFE).set_V 2 0x2A ∧
      c4.set_PC ((chip8_zeroed.set_PC 0xFFFE).set_V 2 0x2A).registers.PC
        = (chip8_zeroed.set_PC 0xFFFE).set_V 2 0x2A ∧
      c5.set_PC ((chip8_zeroed.set_PC 0xFFFE).set_V 2 0x2A).registers.PC
        = (chip8_zeroed.set_PC 0xFFFE).set_V 2 0x2A ∧
      c9.set_PC ((chip8_zeroed.set_PC 0xFFFE).set_V 2 0x2A).registers.PC
        = (chip8_zeroed.set_PC 0xFFFE).set_V 2 0x2A :=
  ⟨by decide, C19_skip_instructions _ ((chip8_zeroed.set_PC 0xFFFE).set_V 2 0x2A) 2 3 0x2A
    (by decide) (by decide) (by decide)⟩

/-! ## Loading a program -/

theorem chip8_load_spec (c : chip8) (buf : List UChar) (h : buf.length + 0x200 < 4096) :
    ∃ c1, chip8_load c buf buf.length = .ok c1 ∧
      c1.registers = { c.registers with PC := toUShort 0x200 } ∧
      c1.stack = c.stack ∧ c1.keyboard = c.keyboard ∧ c1.screen = c.screen ∧
      ∀ j, c1.memory.memory j
        = if 0x200 ≤ j ∧ j < 0x200 + buf.length then buf.getD (j - 0x200) 0
          else c.memory.memory j := by
  have h1 : (buf.length + CHIP8_PROGRAM_LOAD_ADDRESS) % 2 ^ 64 < CHIP8_MEMORY_SIZE := by
    simp only [CHIP8_PROGRAM_LOAD_ADDRESS, CHIP8_MEMORY_SIZE, Nat.reducePow]
    omega
  refine ⟨({ c with memory :=
      { memory := fun j =>
          if CHIP8_PROGRAM_LOAD_ADDRESS ≤ j ∧ j < CHIP8_PROGRAM_LOAD_ADDRESS + buf.length
          then buf.getD (j - CHIP8_PROGRAM_LOAD_ADDRESS) 0
          else c.memory.memory j } } : chip8).set_PC (toUShort CHIP8_PROGRAM_LOAD_ADDRESS),
    ?_, rfl, rfl, rfl, rfl, fun _ => rfl⟩
  unfold chip8_load
  rw [if_pos h1, if_pos (Nat.le_refl _)]
  rfl

theorem list_getD_eq_some (buf : List UChar) (i : Nat) (hi : i < buf.length) :
    buf[i]? = some (buf.getD i 0) := by
  rw [List.getD_eq_getElem?_getD, List.getElem?_eq_getElem hi]
  rfl

/-- C20: for a program buffer of `size` bytes with `size + 0x200 < 4096`, after
`chip8_load` `PC = 0x200`, `Memory[0x200 + i] = buf[i]` for every `i < size`,
`chip8_memory_get_short (0x200 + i) = buf[i] * 256 + buf[i+1]` for every `i + 1 < size`,
and every memory byte outside `0x200 .. 0x200 + size - 1` and every V register is
unchanged; loading `[0x60, 0x05, 0x70, 0x03, 0x00, 0x00]` on a reset machine and
dispatching the words fetched at `0x200` and `0x202` gives `V[0] = 5` and then
`V[0] = 8`. -/
theorem C20_load_program (env : Collaborators) (c : chip8) (buf : List UChar)
    (h : buf.length + 0x200 < 4096) :
    (∃ c1, chip8_load c buf buf.length = .ok c1 ∧ c1.registers.PC.val = 0x200 ∧
      (∀ i, i < buf.length → buf[i]? = some (c1.memory.memory (0x200 + i))) ∧
      (∀ i, i + 1 < buf.length → ∃ b0 b1 w, buf[i]? = some b0 ∧ buf[i + 1]? = some b1 ∧
        chip8_memory_get_short c1.memory ((0x200 + i : Nat) : Int) = .ok w ∧
        w.val = b0.val * 256 + b1.val) ∧
      (∀ j, (j < 0x200 ∨ 0x200 + buf.length ≤ j) →
        c1.memory.memory j = c.memory.memory j) ∧
      c1.registers.V = c.registers.V) ∧
    (∃ c1 w1 c2 w2 c3,
      chip8_load (chip8_init c) [0x60, 0x05, 0x70, 0x03, 0x00, 0x00] 6 = .ok c1 ∧
      chip8_memory_get_short c1.memory 0x200 = .ok w1 ∧ w1.val = 0x6005 ∧
      chip8_exec env c1 w1.val = .ok c2 ∧ (c2.registers.V 0).val = 5 ∧
      chip8_memory_get_short c2.memory 0x202 = .ok w2 ∧ w2.val = 0x7003 ∧
      chip8_exec env c2 w2.val = .ok c3 ∧ (c3.registers.V 0).val = 8) := by
  constructor
  · obtain ⟨c1, hload, hreg, _, _, _, hm⟩ := chip8_load_spec c buf h
    have hat : ∀ i, i < buf.length → c1.memory.memory (0x200 + i) = buf.getD i 0 := by
      intro i hi
      have hc : 0x200 ≤ 0x200 + i ∧ 0x200 + i < 0x200 + buf.length := by omega
      have hs : 0x200 + i - 0x200 = i := by omega
      rw [hm, if_pos hc, hs]
    refine ⟨c1, hload, by rw [hreg]; rfl, ?_, ?_, ?_, by rw [hreg]⟩
    · intro i hi
      rw [hat i hi]
      exact list_getD_eq_some buf i hi
    · intro i hi
      refine ⟨buf.getD i 0, buf.getD (i + 1) 0, _, list_getD_eq_some buf i (by omega),
        list_getD_eq_some buf (i + 1) hi,
        chip8_memory_get_short_ok _ (by omega) (by omega), ?_⟩
      have e0 : ((0x200 + i : Nat) : Int).toNat = 0x200 + i := by omega
      have e1 : (((0x200 + i : Nat) : Int) + 1).toNat = 0x200 + (i + 1) := by omega
      have hb0 := (buf.getD i 0).isLt
      have hb1 := (buf.getD (i + 1) 0).isLt
      rw [e0, e1, hat i (by omega), hat (i + 1) hi]
      simp only [toUShort]
      omega
    · intro j hj
      have hc : ¬ (0x200 ≤ j ∧ j < 0x200 + buf.length) := by omega
      rw [hm, if_neg hc]
  · obtain ⟨c1, hload, hreg, _, _, _, hm⟩ :=
      chip8_load_spec (chip8_init c) [0x60, 0x05, 0x70, 0x03, 0x00, 0x00] (by decide)
    have m0 : c1.memory.memory 0x200 = 0x60 := by rw [hm]; rfl
    have m1 : c1.memory.memory 0x201 = 0x05 := by rw [hm]; rfl
    have m2 : c1.memory.memory 0x202 = 0x70 := by rw [hm]; rfl
    have m3 : c1.memory.memory 0x203 = 0x03 := by rw [hm]; rfl
    have hv0 : c1.registers.V 0 = 0 := by rw [hreg]; rfl
    have g1 := chip8_memory_get_short_ok c1.memory (show (0 : Int) ≤ 0x200 by decide)
      (by decide)
    have g2 := chip8_memory_get_short_ok (c1.set_V 0 (toUChar 5)).memory
      (show (0 : Int) ≤ 0x202 by decide) (by decide)
    have t0 : (0x200 : Int).toNat = 0x200 := rfl
    have t1 : ((0x200 : Int) + 1).toNat = 0x201 := rfl
    have t2 : (0x202 : Int).toNat = 0x202 := rfl
    have t3 : ((0x202 : Int) + 1).toNat = 0x203 := rfl
    rw [t0, t1, m0, m1] at g1
    have hm2 : (c1.set_V 0 (toUChar 5)).memory = c1.memory := rfl
    rw [hm2, t2, t3, m2, m3] at g2
    have x1 := chip8_exec_6xkk env c1 0 5 (by decide) (by decide)
    have x2 := chip8_exec_7xkk env (c1.set_V 0 (toUChar 5)) 0 3 (by decide) (by decide)
    exact ⟨c1, _, _, _, _, hload, g1, rfl, x1, rfl, g2, rfl, x2, rfl⟩

theorem C20_load_program_witness :
    ([(0x12 : UChar), 0x34, 0x56].length + 0x200 < 4096) ∧
    ((∃ c1, chip8_load chip8_zeroed [(0x12 : UChar), 0x34, 0x56]
        [(0x12 : UChar), 0x34, 0x56].length = .ok c1 ∧
      c1.registers.PC.val = 0x200 ∧
      (∀ i, i < [(0x12 : UChar), 0x34, 0x56].length →
        [(0x12 : UChar), 0x34, 0x56][i]? = some (c1.memory.memory (0x200 + i))) ∧
      (∀ i, i + 1 < [(0x12 : UChar), 0x34, 0x56].length → ∃ b0 b1 w,
        [(0x12 : UChar), 0x34, 0x56][i]? = some b0 ∧
        [(0x12 : UChar), 0x34, 0x56][i + 1]? = some b1 ∧
        chip8_memory_get_short c1.memory ((0x200 + i : Nat) : Int) = .ok w ∧
        w.val = b0.val * 256 + b1.val) ∧
      (∀ j, (j < 0x200 ∨ 0x200 + [(0x12 : UChar), 0x34, 0x56].length ≤ j) →
        c1.memory.memory j = chip8_zeroed.memory.memory j) ∧
      c1.registers.V = chip8_zeroed.registers.V) ∧
    (∃ c1 w1 c2 w2 c3,
      chip8_load (chip8_init chip8_zeroed) [0x60, 0x05, 0x70, 0x03, 0x00, 0x00] 6 = .ok c1 ∧
      chip8_memory_get_short c1.memory 0x200 = .ok w1 ∧ w1.val = 0x6005 ∧
      chip8_exec ⟨fun s => .ok s, fun s _ _ _ _ => .ok (false, s), fun _ _ => .ok false,
          fun _ _ => -1, [], 0⟩ c1 w1.val = .ok c2 ∧ (c2.registers.V 0).val = 5 ∧
      chip8_memory_get_short c2.memory 0x202 = .ok w2 ∧ w2.val = 0x7003 ∧
      chip8_exec ⟨fun s => .ok s, fun s _ _ _ _ => .ok (false, s), fun _ _ => .ok false,
          fun _ _ => -1, [], 0⟩ c2 w2.val = .ok c3 ∧ (c3.registers.V 0).val = 8)) :=
  ⟨by decide, C20_load_program _ chip8_zeroed [0x12, 0x34, 0x56] (by decide)⟩

/-! ## The flag of the shift-left instruction -/

/-- C21: evaluation of the code where it departs from its comment.  On the machine with
`V[0] = 0x81`, whose most-significant bit is 1, `chip8_exec` of `0x800E` leaves
`VF = 128`, the masked bit `V[0] & 0x80` itself, and not 1. -/
theorem C21_shift_left_flag_is_128 :
    ∃ c1,
      chip8_exec ⟨fun s => .ok s, fun s _ _ _ _ => .ok (false, s), fun _ _ => .ok false,
          fun _ _ => -1, [], 0⟩ (chip8_zeroed.set_V 0 0x81) (0x8000 + 0 * 256 + 0 * 16 + 0xE)
        = .ok c1 ∧
      128 ≤ ((chip8_zeroed.set_V 0 0x81).registers.V 0).val ∧
      (c1.registers.V 0xF).val = 128 ∧ (c1.registers.V 0xF).val ≠ 1 ∧
      (c1.registers.V 0).val = 0x02 :=
  ⟨_, rfl, by decide, by decide, by decide, by decide⟩

/-! ## Register dump and register load -/

/-- The register load loop: when the addresses fit in the memory it returns; it changes
the V registers only, and of those the registers `V[i] .. V[i + n - 1]`, which receive
the bytes `Memory[I + i] .. Memory[I + i + n - 1]`. -/
theorem chip8_read_registers_loop_ok (n : Nat) : ∀ (c : chip8) (i : Nat),
    c.registers.I.val + i + n ≤ 4096 →
    ∃ c1, chip8_read_registers_loop c n i = .ok c1 ∧
      c1.memory = c.memory ∧ c1.stack = c.stack ∧ c1.keyboard = c.keyboard ∧
      c1.screen = c.screen ∧ c1.registers.I = c.registers.I ∧
      c1.registers.PC = c.registers.PC ∧ c1.registers.SP = c.registers.SP ∧
      c1.registers.delay_timer = c.registers.delay_timer ∧
      c1.registers.sound_timer = c.registers.sound_timer ∧
      ∀ j, c1.registers.V j
        = if i ≤ j ∧ j < i + n then c.memory.memory (c.registers.I.val + j)
          else c.registers.V j := by
  induction n with
  | zero =>
    intro c i _
    refine ⟨c, rfl, rfl, rfl, rfl, rfl, rfl, rfl, rfl, rfl, rfl, ?_⟩
    intro j
    have : ¬ (i ≤ j ∧ j < i + 0) := by omega
    rw [if_neg this]
  | succ n ih =>
    intro c i h
    have hget := chip8_memory_get_ok c.memory
      (show (0 : Int) ≤ (c.registers.I.val : Int) + (i : Int) by omega)
      (show (c.registers.I.val : Int) + (i : Int) < 4096 by omega)
    have htn : ((c.registers.I.val : Int) + (i : Int)).toNat = c.registers.I.val + i := by
      omega
    rw [htn] at hget
    obtain ⟨c1, h1, hmem, hst, hkb, hscr, hI, hPC, hSP, hdt, hsnd, hV⟩ :=
      ih (c.set_V i (c.memory.memory (c.registers.I.val + i))) (i + 1)
        (by show c.registers.I.val + (i + 1) + n ≤ 4096; omega)
    refine ⟨c1, ?_, hmem, hst, hkb, hscr, hI, hPC, hSP, hdt, hsnd, ?_⟩
    · rw [chip8_read_registers_loop, hget]
      exact h1
    · intro j
      rw [hV j]
      show (if i + 1 ≤ j ∧ j < i + 1 + n then c.memory.memory (c.registers.I.val + j)
          else if j = i then c.memory.memory (c.registers.I.val + i) else c.registers.V j) = _
      by_cases hj : j = i
      · have h1 : ¬ (i + 1 ≤ j ∧ j < i + 1 + n) := by omega
        have h2 : i ≤ j ∧ j < i + (n + 1) := by omega
        rw [if_neg h1, if_pos hj, if_pos h2, hj]
      · by_cases hr : i + 1 ≤ j ∧ j < i + 1 + n
        · have h2 : i ≤ j ∧ j < i + (n + 1) := by omega
          rw [if_pos hr, if_pos h2]
        · have h2 : ¬ (i ≤ j ∧ j < i + (n + 1)) := by omega
          rw [if_neg hr, if_neg hj, if_neg h2]

theorem chip8_exec_Fx65 (env : Collaborators) (c : chip8) (x : Nat) (hx : x < 16) :
    chip8_exec env c (0xF000 + x * 256 + 0x65) = chip8_read_registers_loop c (x + 1) 0 := by
  obtain ⟨h1, h2, h3⟩ := chip8_exec_Fxkk env c x 0x65 hx (by decide)
  rw [h1]
  simp only [chip8_exec_extended_F, h2, h3]

/-- C22: for `x` in `0..15` with `I + x < 4096`, `chip8_exec` of `0xFx55` followed by
`chip8_exec` of `0xFx65` leaves every V register equal to its value before the pair, `I`
being untouched in between; `chip8_exec` of `0xFx65` alone sets `V[i] = Memory[I+i]` for
every `i ≤ x` and leaves `V[i]` for `i > x`, `I` and the memory unchanged. -/
theorem C22_store_then_load_registers (env : Collaborators) (c : chip8) (x : Nat)
    (hx : x < 16) (hI : c.registers.I.val + x < 4096) :
    (∃ c1 c2, chip8_exec env c (0xF000 + x * 256 + 0x55) = .ok c1 ∧
      c1.registers.I = c.registers.I ∧
      chip8_exec env c1 (0xF000 + x * 256 + 0x65) = .ok c2 ∧
      (∀ j, c2.registers.V j = c.registers.V j) ∧ c2.registers.I = c.registers.I) ∧
    (∃ c3, chip8_exec env c (0xF000 + x * 256 + 0x65) = .ok c3 ∧
      (∀ i, i ≤ x → c3.registers.V i = c.memory.memory (c.registers.I.val + i)) ∧
      (∀ i, x < i → c3.registers.V i = c.registers.V i) ∧
      c3.registers.I = c.registers.I ∧ c3.memory = c.memory) := by
  constructor
  · obtain ⟨c1, h1, hreg, _, _, _, hmem⟩ :=
      chip8_store_registers_loop_ok (x + 1) c 0 (by omega)
    obtain ⟨c2, h2, _, _, _, _, hI2, _, _, _, _, hV⟩ :=
      chip8_read_registers_loop_ok (x + 1) c1 0 (by rw [hreg]; omega)
    refine ⟨c1, c2, by rw [chip8_exec_Fx55 env c x hx, h1], by rw [hreg],
      by rw [chip8_exec_Fx65 env c1 x hx, h2], ?_, by rw [hI2, hreg]⟩
    intro j
    rw [hV j, hreg]
    by_cases hj : 0 ≤ j ∧ j < 0 + (x + 1)
    · have hin : c.registers.I.val + 0 ≤ c.registers.I.val + j
          ∧ c.registers.I.val + j < c.registers.I.val + 0 + (x + 1) := by omega
      have hsub : c.registers.I.val + j - c.registers.I.val = j := by omega
      rw [if_pos hj, hmem (c.registers.I.val + j), if_pos hin, hsub]
    · rw [if_neg hj]
  · obtain ⟨c3, h3, hmem, _, _, _, hI3, _, _, _, _, hV⟩ :=
      chip8_read_registers_loop_ok (x + 1) c 0 (by omega)
    refine ⟨c3, by rw [chip8_exec_Fx65 env c x hx, h3], ?_, ?_, hI3, hmem⟩
    · intro i hi
      have hj : 0 ≤ i ∧ i < 0 + (x + 1) := by omega
      rw [hV i, if_pos hj]
    · intro i hi
      have hj : ¬ (0 ≤ i ∧ i < 0 + (x + 1)) := by omega
      rw [hV i, if_neg hj]

theorem C22_store_then_load_registers_witness :
    (2 < 16 ∧ ((chip8_zeroed.set_I 0xFFD).set_V 1 7).registers.I.val + 2 < 4096) ∧
    (∃ c1 c2,
      chip8_exec ⟨fun s => .ok s, fun s _ _ _ _ => .ok (false, s), fun _ _ => .ok false,
          fun _ _ => -1, [], 0⟩ ((chip8_zeroed.set_I 0xFFD).set_V 1 7)
          (0xF000 + 2 * 256 + 0x55) = .ok c1 ∧
      c1.registers.I = ((chip8_zeroed.set_I 0xFFD).set_V 1 7).registers.I ∧
      chip8_exec ⟨fun s => .ok s, fun s _ _ _ _ => .ok (false, s), fun _ _ => .ok false,
          fun _ _ => -1, [], 0⟩ c1 (0xF000 + 2 * 256 + 0x65) = .ok c2 ∧
      (∀ j, c2.registers.V j = ((chip8_zeroed.set_I 0xFFD).set_V 1 7).registers.V j) ∧
      c2.registers.I = ((chip8_zeroed.set_I 0xFFD).set_V 1 7).registers.I) ∧
    (∃ c3,
      chip8_exec ⟨fun s => .ok s, fun s _ _ _ _ => .ok (false, s), fun _ _ => .ok false,
          fun _ _ => -1, [], 0⟩ ((chip8_zeroed.set_I 0xFFD).set_V 1 7)
          (0xF000 + 2 * 256 + 0x65) = .ok c3 ∧
      (∀ i, i ≤ 2 → c3.registers.V i
        = ((chip8_zeroed.set_I 0xFFD).set_V 1 7).memory.memory
            (((chip8_zeroed.set_I 0xFFD).set_V 1 7).registers.I.val + i)) ∧
      (∀ i, 2 < i → c3.registers.V i = ((chip8_zeroed.set_I 0xFFD).set_V 1 7).registers.V i) ∧
      c3.registers.I = ((chip8_zeroed.set_I 0xFFD).set_V 1 7).registers.I ∧
      c3.memory = ((chip8_zeroed.set_I 0xFFD).set_V 1 7).memory) :=
  ⟨by decide, C22_store_then_load_registers _ ((chip8_zeroed.set_I 0xFFD).set_V 1 7) 2
    (by decide) (by decide)⟩

/-! ## Stack underflow -/

/-- C23: on a machine with stack pointer 0 the bounds check of `chip8_stack_pop` passes,
the pop returns the content of stack slot 0 and leaves the stack pointer at 255;
`chip8_exec` of `0x00EE` so sets `PC` to the content of slot 0; after `chip8_init` that
content is 0, so `PC` becomes 0. -/
theorem C23_stack_underflow_undetected (env : Collaborators) (c : chip8)
    (h : c.registers.SP.val = 0) :
    chip8_stack_in_bounds c = .ok () ∧
    (∃ c1, chip8_stack_pop c = .ok (c.stack.stack 0, c1) ∧ c1.registers.SP.val = 255) ∧
    (∃ c2, chip8_exec env c 0x00EE = .ok c2 ∧ c2.registers.PC = c.stack.stack 0 ∧
      c2.registers.SP.val = 255) ∧
    (∃ c3, chip8_exec env (chip8_init c) 0x00EE = .ok c3 ∧ c3.registers.PC.val = 0 ∧
      c3.registers.SP.val = 255) := by
  have hpop := chip8_stack_pop_ok c (by omega)
  rw [h] at hpop
  have hinit := chip8_stack_pop_ok (chip8_init c) (by show (0 : Nat) ≤ 15; omega)
  have hsp : (toUCharI (((0 : Nat) : Int) - 1)).val = 255 := by decide
  refine ⟨(chip8_stack_in_bounds_iff c).mpr (by omega), ⟨_, hpop, hsp⟩,
    ⟨_, by rw [chip8_exec_00EE, hpop]; rfl, rfl, hsp⟩,
    ⟨_, by rw [chip8_exec_00EE, hinit]; rfl, rfl, rfl⟩⟩

theorem C23_stack_underflow_undetected_witness :
    ((chip8_init chip8_zeroed).registers.SP.val = 0) ∧
    (chip8_stack_in_bounds (chip8_init chip8_zeroed) = .ok () ∧
    (∃ c1, chip8_stack_pop (chip8_init chip8_zeroed)
        = .ok ((chip8_init chip8_zeroed).stack.stack 0, c1) ∧ c1.registers.SP.val = 255) ∧
    (∃ c2,
      chip8_exec ⟨fun s => .ok s, fun s _ _ _ _ => .ok (false, s), fun _ _ => .ok false,
          fun _ _ => -1, [], 0⟩ (chip8_init chip8_zeroed) 0x00EE = .ok c2 ∧
      c2.registers.PC = (chip8_init chip8_zeroed).stack.stack 0 ∧
      c2.registers.SP.val = 255) ∧
    (∃ c3,
      chip8_exec ⟨fun s => .ok s, fun s _ _ _ _ => .ok (false, s), fun _ _ => .ok false,
          fun _ _ => -1, [], 0⟩ (chip8_init (chip8_init chip8_zeroed)) 0x00EE = .ok c3 ∧
      c3.registers.PC.val = 0 ∧ c3.registers.SP.val = 255)) :=
  ⟨by decide, C23_stack_underflow_undetected _ (chip8_init chip8_zeroed) (by decide)⟩

end Chip8
